import Mathlib

/-!
# Gatekeeper control plane

A shallow embedding of the control plane of the gatekeeper reverse proxy:
the upstream matcher (`gatekeeper/upstream_matcher.go`), the upstream
publisher (`gatekeeper/upstream_publisher.go`), the application
(`gatekeeper/options.go`, `gatekeeper/app.go`), the event broadcaster
(`core/broadcaster.go`), the request handler (`core/server.go`), the local
router (`core/router.go`), the simple load balancer
(`plugins/simple-loadbalancer/main.go`) and the RPC server of the event
plugin (`plugin/event/plugin_rpc.go`).

Conventions of the embedding.

* A Go `map` is a `GoMap`: a finite list of key/value entries.  Lookup, store
  and delete are functions of the entries; the order in which `range` visits
  the entries is *not* a function of the map (Go leaves it unspecified), so
  every function that ranges over a map takes the visiting order as an explicit
  argument `visit`, and theorems quantify over every `visit` that is a
  permutation of the entries.
* A pointer to a struct that is never mutated in place is modelled by the
  struct value it points to where the code at hand is handed non-nil
  pointers.  The tables of the upstream matcher hold the pointer of every
  event they are sent, the nil pointer of an `UpstreamRemoved` event
  included, so there a pointer is an `Option`: `none` is nil, and a method
  call through nil is a run-time panic.
* A Go `error` is an `Option`: `none` is `nil`.
* Mutexes are not modelled: every operation below runs under the component's
  lock in the source and is therefore atomic.
-/

/-- Go's built-in `map[κ]α`, as the finite list of its entries. -/
structure GoMap (κ : Type) (α : Type) where
  entries : List (κ × α)
deriving DecidableEq, Repr

namespace GoMap

variable {κ α : Type} [DecidableEq κ]

/-- The map `make(map[κ]α)`. -/
def empty : GoMap κ α := ⟨[]⟩

/-- The read `v, ok := m[k]`: `some v` when `ok`, `none` otherwise. -/
def lookup (m : GoMap κ α) (k : κ) : Option α :=
  (m.entries.find? (fun e => decide (e.1 = k))).map Prod.snd

/-- The test `_, ok := m[k]`. -/
def contains (m : GoMap κ α) (k : κ) : Bool := (m.lookup k).isSome

/-- The builtin `delete(m, k)`. -/
def delete (m : GoMap κ α) (k : κ) : GoMap κ α :=
  ⟨m.entries.filter (fun e => decide (e.1 ≠ k))⟩

/-- The assignment `m[k] = v`. -/
def store (m : GoMap κ α) (k : κ) (v : α) : GoMap κ α :=
  ⟨(m.delete k).entries ++ [(k, v)]⟩

/-- The keys of the map. -/
def keys (m : GoMap κ α) : List κ := m.entries.map Prod.fst

end GoMap

namespace Gatekeeper

/-! ## Types of package `shared` used by the matcher and the publisher -/

/-- The Go type `shared.UpstreamID`, a string. -/
abbrev UpstreamID := String

/-- The Go type `shared.BackendID`, a string. -/
abbrev BackendID := String

/-- Modelled from the spec: the constant `shared.NilUpstreamID` is declared
outside the sources at hand; it is the zero value of `UpstreamID`, the ID of
an upstream to which "the plugin provided none". -/
def NilUpstreamID : UpstreamID := ""

/-- Modelled from the spec: the struct `shared.Upstream` is declared outside
the sources at hand.  The fields are the ones the sources read: `ID`,
`Hostnames` and `Prefixes` (plus a display name). -/
structure Upstream where
  ID : UpstreamID
  Name : String
  Hostnames : List String
  Prefixes : List String
deriving DecidableEq, Repr

/-- Modelled from the spec: the struct `shared.Backend` is declared outside
the sources at hand; the sources read its `ID`. -/
structure Backend where
  ID : BackendID
  Address : String
deriving DecidableEq, Repr

/-- Modelled from the spec: the struct `shared.Request` is declared outside
the sources at hand; the matcher reads `Host` and `Prefix`. -/
structure Request where
  Host : String
  Prefix : String
  Path : String
deriving DecidableEq, Repr

/-- A string with its upper-case ASCII letters turned to lower case. -/
def lowerCase (str : String) : String := ⟨str.data.map Char.toLower⟩

/-- Modelled from the spec: the method `Upstream.HasHostname` is declared
outside the sources at hand; an upstream has a hostname when it "lists
`host` in its hostnames", and hostnames are an "exact match,
case-insensitive": the hostname equals a listed one up to the case of its
letters.  The method reads the fields of its receiver, so the receiver is
an upstream, not a nil pointer. -/
def Upstream.HasHostname (u : Upstream) (hostname : String) : Bool :=
  decide (lowerCase hostname ∈ u.Hostnames.map lowerCase)

/-- Modelled from the spec: the method `Upstream.HasPrefix` is declared
outside the sources at hand; an upstream has a prefix when it lists it in
its prefixes (`core/router.go`: `InStrList(req.Prefix, upstream.Prefixes)`). -/
def Upstream.HasPrefix (u : Upstream) (pfx : String) : Bool :=
  decide (pfx ∈ u.Prefixes)

/-- The Go type `shared.UpstreamMatchType`. -/
inductive UpstreamMatchType where
  | NilUpstreamMatch
  | HostnameUpstreamMatch
  | PrefixUpstreamMatch
deriving DecidableEq, Repr

/-- The error values of package `gatekeeper` that the modelled functions
return, and the `fmt.Errorf` texts of the publisher. -/
inductive Error where
  | UpstreamNotFoundError
  | InternalEventError
  | errorf (text : String)
deriving DecidableEq, Repr

/-! ## Events -/

/-- The event kinds the matcher and the publisher use. -/
inductive EventType where
  | UpstreamAdded
  | UpstreamRemoved
  | BackendAdded
  | BackendRemoved
deriving DecidableEq, Repr

/-- The zero value of `shared.Upstream`. -/
def Upstream.zero : Upstream := ⟨"", "", [], []⟩

/-- The zero value of `shared.Backend`. -/
def Backend.zero : Backend := ⟨"", ""⟩

/-- The struct `UpstreamEvent` as the publisher builds it and the matcher
reads it.  The matcher stores the field `Upstream` in a map of
`*shared.Upstream` (lines 27, 86), so the field is a pointer; a field a
struct literal leaves out holds its zero value, nil for the pointer. -/
structure UpstreamEvent where
  EventType : EventType
  Upstream : Option Upstream := none
  UpstreamID : UpstreamID := ""
  BackendID : BackendID := ""
  Backend : Backend := Backend.zero
deriving DecidableEq, Repr

/-- A value of the interface `Event` as it arrives on the matcher's listen
channel: an `UpstreamEvent`, or a value of another dynamic type (for which
the assertion `rawEvent.(UpstreamEvent)` fails). -/
inductive Event where
  | upstream (e : UpstreamEvent)
  | other
deriving DecidableEq, Repr

/-! ## The upstream matcher (`gatekeeper/upstream_matcher.go`) -/

/-- The tables of `upstreamMatcher` (the channels and the mutex are left
out).  The values are pointers `*shared.Upstream`; `none` is the nil
pointer. -/
structure upstreamMatcher where
  knownUpstreams : GoMap UpstreamID (Option Upstream)
  upstreamsByHostname : GoMap String (Option Upstream)
  upstreamsByPrefix : GoMap String (Option Upstream)
deriving DecidableEq, Repr

/-- The tables `NewUpstreamMatcher` builds: three empty maps. -/
def NewUpstreamMatcher : upstreamMatcher :=
  ⟨GoMap.empty, GoMap.empty, GoMap.empty⟩

/-- The method `addUpstream` (lines 79-87): an event with the nil ID is a
programming error (logged, no change); otherwise the pointer
`event.Upstream`, nil or not, is stored under the event's ID. -/
def upstreamMatcher.addUpstream (r : upstreamMatcher) (event : UpstreamEvent) :
    upstreamMatcher :=
  if event.UpstreamID = NilUpstreamID then r
  else { r with knownUpstreams := r.knownUpstreams.store event.UpstreamID event.Upstream }

/-- The method `removeUpstream` (lines 89-114): an unknown ID is a
programming error (logged, no change); otherwise every hostname and prefix
of the stored upstream is deleted from the caches, and the ID from
`knownUpstreams`.  The result is `none` when the stored pointer is nil:
`upstr.Hostnames` is then a nil-pointer dereference, a run-time panic. -/
def upstreamMatcher.removeUpstream (r : upstreamMatcher) (event : UpstreamEvent) :
    Option upstreamMatcher :=
  match r.knownUpstreams.lookup event.UpstreamID with
  | none => some r
  | some none => none
  | some (some upstr) =>
    some
      { knownUpstreams := r.knownUpstreams.delete event.UpstreamID
        upstreamsByHostname :=
          upstr.Hostnames.foldl (fun m hostname => m.delete hostname) r.upstreamsByHostname
        upstreamsByPrefix :=
          upstr.Prefixes.foldl (fun m pfx => m.delete pfx) r.upstreamsByPrefix }

/-- One turn of the loop of `listener` (lines 56-77) on a received event:
an event that is not an `UpstreamEvent` is a programming error; an
`UpstreamAdded` event goes to `addUpstream` (line 66), and an
`UpstreamRemoved` event goes to `addUpstream` as well (line 68); any other
kind is a programming error. -/
def upstreamMatcher.listener (r : upstreamMatcher) (rawEvent : Event) : upstreamMatcher :=
  match rawEvent with
  | Event.other => r
  | Event.upstream upstreamEvent =>
    if upstreamEvent.EventType = EventType.UpstreamAdded then
      r.addUpstream upstreamEvent
    else if upstreamEvent.EventType = EventType.UpstreamRemoved then
      r.addUpstream upstreamEvent
    else r

/-- The listener loop over a sequence of received events, in order. -/
def upstreamMatcher.listenAll (r : upstreamMatcher) (events : List Event) :
    upstreamMatcher :=
  events.foldl upstreamMatcher.listener r

/-- What `Match` returns when it returns: the upstream (`none` is the nil
pointer), the match type and the error. -/
structure MatchResult where
  upstream : Option Upstream
  matchType : UpstreamMatchType
  err : Option Error
deriving DecidableEq, Repr

/-- The loop of `Match` over `knownUpstreams` (lines 154-163), on the
entries in the order `range` visits them, as the matcher it leaves and the
result it returns; the result is `none` when the loop panics.  On each
entry `upstream.HasHostname` is called through the stored pointer, a
run-time panic when the pointer is nil.  The first upstream that has the
hostname or the prefix is cached under it and returned; the hostname is
tested before the prefix on each upstream. -/
def upstreamMatcher.scan (r : upstreamMatcher) (hostname pfx : String) :
    List (UpstreamID × Option Upstream) → upstreamMatcher × Option MatchResult
  | [] =>
    (r, some ⟨none, UpstreamMatchType.NilUpstreamMatch, some Error.UpstreamNotFoundError⟩)
  | (_, none) :: _ => (r, none)
  | (_, some upstream) :: rest =>
    if upstream.HasHostname hostname then
      ({ r with upstreamsByHostname := r.upstreamsByHostname.store hostname (some upstream) },
        some ⟨some upstream, UpstreamMatchType.HostnameUpstreamMatch, none⟩)
    else if upstream.HasPrefix pfx then
      ({ r with upstreamsByPrefix := r.upstreamsByPrefix.store pfx (some upstream) },
        some ⟨some upstream, UpstreamMatchType.PrefixUpstreamMatch, none⟩)
    else upstreamMatcher.scan r hostname pfx rest

/-- The method `Match` (lines 136-166), as the matcher it leaves and the
result it returns; the result is `none` when it panics.  `visit` is the
order in which the `range` over `knownUpstreams` yields the entries.  The
hostname cache is consulted first (for a non-empty host), then the prefix
cache (for a non-empty prefix); a cached pointer is returned as it is.
Then the known upstreams are scanned. -/
def upstreamMatcher.Match (r : upstreamMatcher)
    (visit : List (UpstreamID × Option Upstream)) (req : Request) :
    upstreamMatcher × Option MatchResult :=
  let hostname := req.Host
  let pfx := req.Prefix
  match (if hostname ≠ "" then r.upstreamsByHostname.lookup hostname else none) with
  | some upstream => (r, some ⟨upstream, UpstreamMatchType.HostnameUpstreamMatch, none⟩)
  | none =>
    match (if pfx ≠ "" then r.upstreamsByPrefix.lookup pfx else none) with
    | some upstream => (r, some ⟨upstream, UpstreamMatchType.PrefixUpstreamMatch, none⟩)
    | none => r.scan hostname pfx visit

/-- An entry of `knownUpstreams` whose pointer is not nil. -/
def pointTo (entry : UpstreamID × Upstream) : UpstreamID × Option Upstream :=
  (entry.1, some entry.2)

/-- The caches are sound: every entry of the hostname cache points to an
upstream that has the entry's hostname, and every entry of the prefix
cache to one that has the entry's prefix; no entry is nil. -/
def upstreamMatcher.cachesSound (r : upstreamMatcher) : Prop :=
  (∀ hostname c, r.upstreamsByHostname.lookup hostname = some c →
    ∃ u, c = some u ∧ u.HasHostname hostname = true) ∧
  (∀ pfx c, r.upstreamsByPrefix.lookup pfx = some c →
    ∃ u, c = some u ∧ u.HasPrefix pfx = true)

/-! ## The upstream publisher (`gatekeeper/upstream_publisher.go`) -/

/-- The ID sets of `UpstreamPublisher` (`map[...]interface{}` used as sets;
the plugin managers and the mutex are left out). -/
structure UpstreamPublisher where
  knownUpstreams : GoMap UpstreamID Unit
  knownBackends : GoMap BackendID Unit
deriving DecidableEq, Repr

/-- The ID sets `NewUpstreamPublisher` builds: two empty maps. -/
def NewUpstreamPublisher : UpstreamPublisher := ⟨GoMap.empty, GoMap.empty⟩

/-- The effect of one publisher call: the publisher afterwards, the events
the call handed to `broadcaster.Publish` (in order), and the returned
error. -/
structure Outcome where
  publisher : UpstreamPublisher
  published : List UpstreamEvent
  err : Option Error
deriving DecidableEq, Repr

/-- The tail shared by the four publisher methods: hand the event to
`broadcaster.Publish` and turn its error into
`UNABLE_TO_BROADCAST_MESSAGE`.  The broadcaster of package `gatekeeper` is
declared outside the sources at hand, so the error its `Publish` returns is
the parameter `bc`. -/
def UpstreamPublisher.publish (p : UpstreamPublisher) (bc : UpstreamEvent → Option Error)
    (event : UpstreamEvent) : Outcome :=
  match bc event with
  | some _ => ⟨p, [event], some (Error.errorf "UNABLE_TO_BROADCAST_MESSAGE")⟩
  | none => ⟨p, [event], none⟩

/-- The method `AddUpstream` (lines 100-113): the upstream's ID is stored
in `knownUpstreams` as it came, and an `UpstreamAdded` event carrying the
upstream and that ID is published.  The method returns only an error.
(The publisher hands the event the upstream it was given, so the pointer
of the event is not nil.) -/
def UpstreamPublisher.AddUpstream (p : UpstreamPublisher) (bc : UpstreamEvent → Option Error)
    (upstream : Upstream) : Outcome :=
  UpstreamPublisher.publish
    { p with knownUpstreams := p.knownUpstreams.store upstream.ID () } bc
    { EventType := EventType.UpstreamAdded, Upstream := some upstream,
      UpstreamID := upstream.ID }

/-- The method `RemoveUpstream` (lines 115-131): an unknown ID fails with
`UPSTREAM_NOT_FOUND` before anything else happens; a known ID is deleted
and an `UpstreamRemoved` event carrying it is published. -/
def UpstreamPublisher.RemoveUpstream (p : UpstreamPublisher) (bc : UpstreamEvent → Option Error)
    (upstreamID : UpstreamID) : Outcome :=
  if p.knownUpstreams.contains upstreamID then
    UpstreamPublisher.publish
      { p with knownUpstreams := p.knownUpstreams.delete upstreamID } bc
      { EventType := EventType.UpstreamRemoved, UpstreamID := upstreamID }
  else ⟨p, [], some (Error.errorf "UPSTREAM_NOT_FOUND")⟩

/-- The method `AddBackend` (lines 133-150): an unknown parent upstream
fails with `UPSTREAM_NOT_FOUND`; otherwise a `BackendAdded` event is
published.  No map is written. -/
def UpstreamPublisher.AddBackend (p : UpstreamPublisher) (bc : UpstreamEvent → Option Error)
    (upstreamID : UpstreamID) (backend : Backend) : Outcome :=
  if p.knownUpstreams.contains upstreamID then
    UpstreamPublisher.publish p bc
      { EventType := EventType.BackendAdded, UpstreamID := upstreamID,
        BackendID := backend.ID, Backend := backend }
  else ⟨p, [], some (Error.errorf "UPSTREAM_NOT_FOUND")⟩

/-- The method `RemoveBackend` (lines 152-166): a backend ID that is not in
`knownBackends` fails with `BACKEND_NOT_FOUND`; otherwise a
`BackendRemoved` event is published. -/
def UpstreamPublisher.RemoveBackend (p : UpstreamPublisher) (bc : UpstreamEvent → Option Error)
    (backendID : BackendID) : Outcome :=
  if p.knownBackends.contains backendID then
    UpstreamPublisher.publish p bc
      { EventType := EventType.BackendRemoved, BackendID := backendID }
  else ⟨p, [], some (Error.errorf "BACKEND_NOT_FOUND")⟩

/-- One call of the callback surface the publisher offers to plugins. -/
inductive Call where
  | addUpstream (upstream : Upstream)
  | removeUpstream (upstreamID : UpstreamID)
  | addBackend (upstreamID : UpstreamID) (backend : Backend)
  | removeBackend (backendID : BackendID)
deriving DecidableEq, Repr

/-- The publisher after one call. -/
def UpstreamPublisher.step (p : UpstreamPublisher) (bc : UpstreamEvent → Option Error) :
    Call → UpstreamPublisher
  | Call.addUpstream upstream => (p.AddUpstream bc upstream).publisher
  | Call.removeUpstream upstreamID => (p.RemoveUpstream bc upstreamID).publisher
  | Call.addBackend upstreamID backend => (p.AddBackend bc upstreamID backend).publisher
  | Call.removeBackend backendID => (p.RemoveBackend bc backendID).publisher

/-- The publisher after a sequence of calls, in order. -/
def UpstreamPublisher.run (p : UpstreamPublisher) (bc : UpstreamEvent → Option Error)
    (calls : List Call) : UpstreamPublisher :=
  calls.foldl (fun q c => q.step bc c) p

end Gatekeeper

namespace Core

/-! ## The event broadcaster (`core/broadcaster.go`) -/

/-- The event kinds of package `core` (the Go type `gatekeeper.Event` that
`core` imports): those `UpstreamEvent.UpstreamEvent` accepts, and those the
server emits as event metrics. -/
inductive EventKind where
  | UpstreamAddedEvent
  | UpstreamRemovedEvent
  | BackendAddedEvent
  | BackendRemovedEvent
  | ServerStartedEvent
  | ServerStoppedEvent
  | RequestAcceptedEvent
  | RequestErrorEvent
  | RequestSuccessEvent
deriving DecidableEq, Repr

/-- The struct `UpstreamEvent` of package `core`; its pointers may be
nil. -/
structure UpstreamEvent where
  Event : EventKind
  Upstream : Option Gatekeeper.Upstream := none
  UpstreamID : Gatekeeper.UpstreamID := ""
  Backend : Option Gatekeeper.Backend := none
  BackendID : Gatekeeper.BackendID := ""
deriving DecidableEq, Repr

/-- The method `UpstreamEvent.Type` (lines 23-25). -/
def UpstreamEvent.Type (u : UpstreamEvent) : EventKind := u.Event

/-- The Go type `ListenerID`, a string. -/
abbrev ListenerID := String

/-- A channel `EventCh`, by its identity. -/
abbrev EventCh := Nat

/-- The struct `broadcaster`: for each event kind, the channel of each
listener registered for it. -/
structure broadcaster where
  eventListeners : GoMap EventKind (GoMap ListenerID EventCh)
deriving DecidableEq, Repr

/-- The table `NewBroadcaster` builds. -/
def NewBroadcaster : broadcaster := ⟨GoMap.empty⟩

/-- When the goroutines that `Publish` spawns read the loop variable
`eventCh`: `sched i = j` says that the goroutine spawned in iteration `i`
runs its send while the loop variable holds the value of iteration `j`.  A
goroutine starts after it is spawned and the variable keeps the value of
the last iteration once the loop is over, so `i ≤ sched i < n`. -/
def validSchedule (n : Nat) (sched : Nat → Nat) : Prop :=
  ∀ i, i < n → i ≤ sched i ∧ sched i < n

/-- The schedule on which each goroutine runs before the next iteration
begins. -/
def promptSchedule : Nat → Nat := fun i => i

/-- The schedule on which every goroutine of a loop of `n` iterations runs
after the loop has ended. -/
def lateSchedule (n : Nat) : Nat → Nat := fun _ => n - 1

/-- The method `Publish` (lines 88-100), as the list of channel sends its
goroutines perform, next to the broadcaster (which it does not write).

With no entry for the event's kind it returns at once.  Otherwise the loop
`for _, eventCh := range listeners` visits the listeners in the order
`visit` and spawns one goroutine per iteration.  The function literal
`func(EventCh) { eventCh <- event }` leaves its parameter unnamed, so the
`eventCh` of its body is the loop variable (one variable for the whole
loop in Go before 1.22, the language of this repository); the goroutine of
iteration `i` sends on the channel the variable holds when it runs,
`visit[sched i]`. -/
def broadcaster.Publish (b : broadcaster) (visit : List (ListenerID × EventCh))
    (sched : Nat → Nat) (event : UpstreamEvent) : broadcaster × List (EventCh × UpstreamEvent) :=
  match b.eventListeners.lookup event.Type with
  | none => (b, [])
  | some _ =>
    (b, (List.range visit.length).filterMap
      (fun i => (visit.get? (sched i)).map (fun l => (l.2, event))))

/-- One turn of the loop of `AddListener` (lines 70-77): an inner map is
made if the kind has none, and the channel is stored in the kind's inner
map under the ID. -/
def broadcaster.register (listenerID : ListenerID) (ch : EventCh)
    (m : GoMap EventKind (GoMap ListenerID EventCh)) (event : EventKind) :
    GoMap EventKind (GoMap ListenerID EventCh) :=
  let m1 := if m.contains event then m else m.store event GoMap.empty
  m1.store event (((m1.lookup event).getD GoMap.empty).store listenerID ch)

/-- The method `AddListener` (lines 67-80).  `gatekeeper.GetUUID` is
declared outside the sources at hand; the ID it returns is the parameter
`listenerID`.  The channel is registered under that ID for every kind of
`events` in turn. -/
def broadcaster.AddListener (b : broadcaster) (listenerID : ListenerID) (ch : EventCh)
    (events : List EventKind) : broadcaster × ListenerID :=
  (⟨events.foldl (broadcaster.register listenerID ch) b.eventListeners⟩, listenerID)

/-- One turn of the loop of `RemoveListener` (line 84):
`delete(b.eventListeners[event], id)`. -/
def broadcaster.unregister (id : ListenerID)
    (m : GoMap EventKind (GoMap ListenerID EventCh))
    (entry : EventKind × GoMap ListenerID EventCh) :
    GoMap EventKind (GoMap ListenerID EventCh) :=
  match m.lookup entry.1 with
  | some listeners => m.store entry.1 (listeners.delete id)
  | none => m

/-- The method `RemoveListener` (lines 82-86).  `visit` is the order in
which the `range` over `eventListeners` yields the entries; for each kind
the ID is deleted from the kind's inner map. -/
def broadcaster.RemoveListener (b : broadcaster)
    (visit : List (EventKind × GoMap ListenerID EventCh)) (id : ListenerID) : broadcaster :=
  ⟨visit.foldl (broadcaster.unregister id) b.eventListeners⟩

/-- The channel registered under a listener ID for an event kind, if
any: `b.eventListeners[kind][id]`. -/
def broadcaster.registration (b : broadcaster) (kind : EventKind) (id : ListenerID) :
    Option EventCh :=
  (b.eventListeners.lookup kind).bind (fun listeners => listeners.lookup id)

/-! ## The request handler (`core/server.go`) -/

/-- The error values of package `core` the handler names, and any other
error by its text. -/
inductive Error where
  | ServerShuttingDownError
  | ModifierPluginError
  | RouteNotFoundError
  | other (text : String)
deriving DecidableEq, Repr

/-- Modelled from the spec: the error values of package `core` are declared
outside the sources at hand; the text that the method `Error()` returns
for a named error is taken to be its name. -/
def Error.text : Error → String
  | Error.ServerShuttingDownError => "ServerShuttingDownError"
  | Error.ModifierPluginError => "ModifierPluginError"
  | Error.RouteNotFoundError => "RouteNotFoundError"
  | Error.other text => text

/-- Modelled from the spec: the struct `gatekeeper.Response` is declared
outside the sources at hand; the server reads `StatusCode`, `Header` and
`Body`. -/
structure Response where
  StatusCode : Nat
  Body : String
  Header : List (String × List String) := []
deriving DecidableEq, Repr

/-- Modelled from the spec: the function `gatekeeper.NewErrorResponse` is
declared outside the sources at hand; it builds the response with the given
status whose body is the text of the error (empty for a nil error). -/
def NewErrorResponse (statusCode : Nat) (err : Option Error) : Response :=
  { StatusCode := statusCode
    Body := match err with
      | some e => e.text
      | none => "" }

/-- Modelled from the spec: the struct `gatekeeper.Request` of package
`core` is declared outside the sources at hand; the router reads `Host`,
`Prefix`, `Path` and `PrefixlessPath`, the server reads `Error` and
`Response`. -/
structure Request where
  Host : String
  Prefix : String
  Path : String
  PrefixlessPath : String
  Error : Option Error := none
  Response : Option Response := none
deriving DecidableEq, Repr

/-- Modelled from the spec: the struct `gatekeeper.RequestMetric` is
declared outside the sources at hand; these are the fields the handler
writes, without the timestamps and latencies (time is not modelled). -/
structure RequestMetric where
  Request : Request
  Upstream : Option Gatekeeper.Upstream := none
  Backend : Option Gatekeeper.Backend := none
  Response : Option Response := none
  Error : Option Error := none
deriving DecidableEq, Repr

/-- The struct `server`: the draining flag and the collaborators, each by
the function its interface method computes.  The collaborators are taken
to return non-nil pointers where the handler dereferences them (the
upstream of a successful `RouteRequest`, the request of a successful
`ModifyRequest`, the response of `ModifyErrorResponse`); the backend is
never dereferenced and may be nil. -/
structure server where
  stopAccepting : Bool
  /-- The method `router.RouteRequest`. -/
  RouteRequest : Request → Gatekeeper.Upstream × Request × Option Error
  /-- The method `loadBalancer.GetBackend`. -/
  GetBackend : Gatekeeper.UpstreamID → Option Gatekeeper.Backend × Option Error
  /-- The method `modifier.ModifyRequest`. -/
  ModifyRequest : Request → Request × Option Error
  /-- The method `modifier.ModifyErrorResponse`. -/
  ModifyErrorResponse : Option Error → Request → Response → Response × Option Error
  /-- The method `proxier.Proxy`, which receives the metric and may write
  it; on success it has written the response of the backend. -/
  Proxy : Request → Gatekeeper.Upstream → Option Gatekeeper.Backend → RequestMetric →
    RequestMetric × Option Error

/-- What the handler does to the outside, one call at a time. -/
inductive Action where
  | EventMetric (event : EventKind)
  | RouteRequest (req : Request)
  | GetBackend (upstreamID : Gatekeeper.UpstreamID)
  | ModifyRequest (req : Request)
  | ModifyErrorResponse (err : Option Error) (req : Request) (response : Response)
  | Proxy (req : Request) (upstream : Gatekeeper.Upstream) (backend : Option Gatekeeper.Backend)
  | writeResponse (response : Response)
  | RequestMetric (metric : RequestMetric)
deriving DecidableEq, Repr

/-- The method `eventMetric` (lines 284-289): one call of
`metricWriter.EventMetric`. -/
def server.eventMetric (event : EventKind) : List Action := [Action.EventMetric event]

/-- The method `writeResponse` (lines 265-282): the response goes to the
`http.ResponseWriter`. -/
def server.writeResponse (response : Response) : List Action :=
  [Action.writeResponse response]

/-- The method `writeError` (lines 253-262): the response goes through
`ModifyErrorResponse`; if that fails, its body becomes the text of
`ModifierPluginError` and its status 500; a `RequestErrorEvent` is emitted
and the response written. -/
def server.writeError (s : server) (err : Option Error) (request : Request)
    (response : Response) : List Action :=
  let modified := s.ModifyErrorResponse err request response
  let final : Response :=
    match modified.2 with
    | some _ => { modified.1 with Body := Error.ModifierPluginError.text, StatusCode := 500 }
    | none => modified.1
  [Action.ModifyErrorResponse err request response] ++
    server.eventMetric EventKind.RequestErrorEvent ++ server.writeResponse final

/-- The body of `httpHandler` between the `defer` and the end of the
function (lines 175-249): the calls it makes, and the metric as it stands
when the body returns. -/
def server.handle (s : server) (req : Request) (metric : RequestMetric) :
    List Action × RequestMetric :=
  if s.stopAccepting then
    let resp := NewErrorResponse 500 (some Error.ServerShuttingDownError)
    (s.writeError (some Error.ServerShuttingDownError) req resp,
      { metric with Response := some resp, Error := some Error.ServerShuttingDownError })
  else
    match s.RouteRequest req with
    | (_, req1, some err) =>
      let resp := NewErrorResponse 400 (some err)
      ([Action.RouteRequest req] ++ s.writeError (some err) req1 resp,
        { metric with Response := some resp, Error := some err })
    | (upstream, req1, none) =>
      let metric1 := { metric with Upstream := some upstream }
      match s.GetBackend upstream.ID with
      | (_, some err) =>
        let resp := NewErrorResponse 500 (some err)
        ([Action.RouteRequest req, Action.GetBackend upstream.ID] ++
            s.writeError (some err) req1 resp,
          { metric1 with Response := some resp, Error := some err })
      | (backend, none) =>
        let metric2 := { metric1 with Backend := backend }
        let called := [Action.RouteRequest req, Action.GetBackend upstream.ID,
          Action.ModifyRequest req1]
        match s.ModifyRequest req1 with
        | (req2, some err) =>
          let resp := NewErrorResponse 500 (some err)
          (called ++ s.writeError (some err) req2 resp,
            { metric2 with Error := some err, Response := some resp })
        | (req2, none) =>
          match req2.Error with
          | some reqErr =>
            let resp := NewErrorResponse 500 none
            (called ++ s.writeError none req2 resp,
              { metric2 with Error := some reqErr, Response := some resp })
          | none =>
            match req2.Response with
            | some early =>
              (called ++ server.writeResponse early, { metric2 with Response := some early })
            | none =>
              match s.Proxy req2 upstream backend metric2 with
              | (metric3, some err) =>
                let resp := NewErrorResponse 500 (some err)
                (called ++ [Action.Proxy req2 upstream backend] ++
                    s.writeError (some err) req2 resp,
                  { metric3 with Response := some resp, Error := some err })
              | (metric3, none) =>
                (called ++ [Action.Proxy req2 upstream backend] ++
                    server.eventMetric EventKind.RequestSuccessEvent,
                  metric3)

/-- The method `httpHandler` (lines 151-250) on the request built from the
raw request: the metric is created, `RequestAcceptedEvent` is emitted, the
body runs, and the deferred function hands the metric to
`metricWriter.RequestMetric`. -/
def server.httpHandler (s : server) (req : Request) : List Action :=
  let metric : RequestMetric := { Request := req }
  server.eventMetric EventKind.RequestAcceptedEvent ++ (s.handle req metric).1 ++
    [Action.RequestMetric (s.handle req metric).2]

/-- The stages of the request pipeline. -/
inductive Stage where
  | route
  | balance
  | modify
  | proxy
deriving DecidableEq, Repr

/-- The pipeline stage a call belongs to, if it is a call of the router,
the load balancer, `ModifyRequest` or the proxier. -/
def Action.stage : Action → Option Stage
  | Action.RouteRequest _ => some Stage.route
  | Action.GetBackend _ => some Stage.balance
  | Action.ModifyRequest _ => some Stage.modify
  | Action.Proxy _ _ _ => some Stage.proxy
  | _ => none

/-- The pipeline stages a run of the handler invoked, in order. -/
def stages (trace : List Action) : List Stage := trace.filterMap Action.stage

/-- The error responses a run of the handler built and handed to
`ModifyErrorResponse`, in order. -/
def errorResponses (trace : List Action) : List Response :=
  trace.filterMap (fun a =>
    match a with
    | Action.ModifyErrorResponse _ _ response => some response
    | _ => none)

/-- The responses a run of the handler wrote itself, in order. -/
def written (trace : List Action) : List Response :=
  trace.filterMap (fun a =>
    match a with
    | Action.writeResponse response => some response
    | _ => none)

/-- The metrics a run of the handler handed to
`metricWriter.RequestMetric`, in order. -/
def emitted (trace : List Action) : List RequestMetric :=
  trace.filterMap (fun a =>
    match a with
    | Action.RequestMetric metric => some metric
    | _ => none)

/-- What `Stop` does to the outside, one step at a time. -/
inductive StopAction where
  | EventMetric (event : EventKind)
  | httpServerStop (duration : Nat)
  | stopChSend
  | errChReceive
deriving DecidableEq, Repr

/-- The method `Stop` (lines 104-111).  Modelled from the spec: the method
`SyncStop` of the embedded `SyncStartStopper` is declared outside the
sources at hand; on a started server it runs the function it is given,
once.  That function emits `ServerStoppedEvent`, stops the HTTP server,
sends on `stopCh` and returns the error that arrives on `errCh` (the
parameter `errCh`).  No field of the server is written. -/
def server.Stop (s : server) (duration : Nat) (errCh : Option Error) :
    server × List StopAction × Option Error :=
  (s,
    [StopAction.EventMetric EventKind.ServerStoppedEvent, StopAction.httpServerStop duration,
      StopAction.stopChSend, StopAction.errChReceive],
    errCh)

/-! ## The local router (`core/router.go`) -/

/-- Modelled from the spec: the function `InStrList` is declared outside
the sources at hand; it tells whether the string is an element of the
list. -/
def InStrList (str : String) (list : List String) : Bool := decide (str ∈ list)

/-- The tables of `localRouter` (the subscriber, the channel and the mutex
are left out). -/
structure localRouter where
  upstreams : GoMap Gatekeeper.UpstreamID Gatekeeper.Upstream
  prefixCache : GoMap String Gatekeeper.Upstream
  hostnameCache : GoMap String Gatekeeper.Upstream
deriving DecidableEq, Repr

/-- The tables `NewLocalRouter` builds: three empty maps. -/
def NewLocalRouter : localRouter := ⟨GoMap.empty, GoMap.empty, GoMap.empty⟩

/-- What `RouteRequest` returns: the upstream (`none` is the nil pointer),
the request and the error. -/
structure RouteResult where
  upstream : Option Gatekeeper.Upstream
  req : Request
  err : Option Error
deriving DecidableEq, Repr

/-- The loop of `RouteRequest` over `upstreams` (lines 70-81), on the
entries in the order `range` visits them: the first upstream that lists
the host or the prefix is cached and returned; on a prefix match the path
of the request becomes its prefixless path. -/
def localRouter.scan (l : localRouter) (req : Request) :
    List (Gatekeeper.UpstreamID × Gatekeeper.Upstream) → localRouter × RouteResult
  | [] => (l, ⟨none, req, some Error.RouteNotFoundError⟩)
  | (_, upstream) :: rest =>
    if InStrList req.Host upstream.Hostnames then
      ({ l with hostnameCache := l.hostnameCache.store req.Host upstream },
        ⟨some upstream, req, none⟩)
    else if InStrList req.Prefix upstream.Prefixes then
      ({ l with prefixCache := l.prefixCache.store req.Prefix upstream },
        ⟨some upstream, { req with Path := req.PrefixlessPath }, none⟩)
    else localRouter.scan l req rest

/-- The method `RouteRequest` (lines 54-84).  `visit` is the order in which
the `range` over `upstreams` yields the entries.  The prefix cache is
consulted first, then the hostname cache, then the upstreams are
scanned. -/
def localRouter.RouteRequest (l : localRouter)
    (visit : List (Gatekeeper.UpstreamID × Gatekeeper.Upstream)) (req : Request) :
    localRouter × RouteResult :=
  match l.prefixCache.lookup req.Prefix with
  | some upstream => (l, ⟨some upstream, { req with Path := req.PrefixlessPath }, none⟩)
  | none =>
    match l.hostnameCache.lookup req.Host with
    | some upstream => (l, ⟨some upstream, req, none⟩)
    | none => l.scan req visit

/-- The method `addUpstreamHook` (lines 86-88), which `Start` registers for
`UpstreamAddedEvent`: its body is empty. -/
def localRouter.addUpstreamHook (l : localRouter) (_event : UpstreamEvent) : localRouter := l

/-- The method `removeUpstreamHook` (lines 90-92), which `Start` registers
for `UpstreamRemovedEvent`: its body is empty. -/
def localRouter.removeUpstreamHook (l : localRouter) (_event : UpstreamEvent) : localRouter := l

end Core

namespace Gatekeeper

/-! ## The application (`gatekeeper/options.go`, `gatekeeper/app.go`) -/

/-- The Go type `shared.Protocol` (`shared/protocol.go`). -/
inductive Protocol where
  | HTTPPublic
  | HTTPInternal
deriving DecidableEq, Repr

/-- The struct `Options`, without the option maps handed to the plugins
and the default timeout.  `New` writes the entry `manager` of
`UpstreamPluginOpts` (line 61), a run-time panic on a nil map: the options
are those whose `UpstreamPluginOpts` is a map, empty or not. -/
structure Options where
  UpstreamPlugins : List String
  UpstreamPluginsCount : Nat
  LoadBalancerPlugin : String
  LoadBalancerPluginsCount : Nat
  RequestPlugins : List String
  RequestPluginsCount : Nat
  ResponsePlugins : List String := []
  ResponsePluginsCount : Nat := 0
  HTTPPublicPort : Nat
  HTTPInternalPort : Nat
deriving DecidableEq, Repr

/-- Modelled from the spec: the type `MultiError` is declared outside the
sources at hand; `ToErr` is nil when no error was added and an error
otherwise. -/
def MultiError.ToErr (errs : List Error) : Option Error :=
  if errs.isEmpty then none else some (Error.errorf "MULTI_ERROR")

/-- The function `ValidatePlugins` (lines 52-65).  `lookPath` is
`exec.LookPath`: the full path of a binary, or an error. -/
def ValidatePlugins (lookPath : String → Except Error String) (paths : List String) :
    List String × Option Error :=
  let final := paths.foldl
    (fun (acc : List String × List Error) path =>
      match lookPath path with
      | Except.error err => (acc.1, acc.2 ++ [err])
      | Except.ok fullpath => (acc.1 ++ [fullpath], acc.2))
    ([], [])
  (final.1, MultiError.ToErr final.2)

/-- The method `Options.Validate` (lines 67-103), as the options it leaves
(it writes the full paths of the plugins it found) and the error. -/
def Options.Validate (o : Options) (lookPath : String → Except Error String) :
    Options × Option Error :=
  let up := ValidatePlugins lookPath o.UpstreamPlugins
  let errs1 := match up.2 with
    | some err => [err]
    | none => []
  let o1 := match up.2 with
    | some _ => o
    | none => { o with UpstreamPlugins := up.1 }
  if o1.UpstreamPluginsCount = 0 then (o1, some (Error.errorf "UPSTREAM_PLUGIN_COUNT_ZERO"))
  else
    let errs2 := match lookPath o1.LoadBalancerPlugin with
      | Except.error err => errs1 ++ [err]
      | Except.ok _ => errs1
    let o2 := match lookPath o1.LoadBalancerPlugin with
      | Except.error _ => o1
      | Except.ok fullpath => { o1 with LoadBalancerPlugin := fullpath }
    if o2.LoadBalancerPluginsCount = 0 then
      (o2, some (Error.errorf "LOAD_BALANCER_PLUGIN_COUNT_ZERO"))
    else
      let rp := ValidatePlugins lookPath o2.RequestPlugins
      let errs3 := match rp.2 with
        | some err => errs2 ++ [err]
        | none => errs2
      let o3 := match rp.2 with
        | some _ => o2
        | none => { o2 with RequestPlugins := rp.1 }
      if o3.RequestPluginsCount = 0 then (o3, some (Error.errorf "REQUEST_PLUGIN_COUNT_ZERO"))
      else (o3, MultiError.ToErr errs3)

/-- The struct `ProxyServer` as `New` builds it: the port and the protocol
(the collaborators handed to every server are left out). -/
structure ProxyServer where
  port : Nat
  protocol : Protocol
deriving DecidableEq, Repr

/-- The struct `App`, by its servers. -/
structure App where
  servers : List ProxyServer
deriving DecidableEq, Repr

/-- The function `New` (lines 26-110): the options are validated; one
server is appended when `HTTPPublicPort` is not zero (lines 88-97);
`HTTPInternalPort` is not read; with no server `New` fails. -/
def New (lookPath : String → Except Error String) (options : Options) :
    Option App × Option Error :=
  match options.Validate lookPath with
  | (_, some err) => (none, some err)
  | (options1, none) =>
    let servers : List ProxyServer :=
      if options1.HTTPPublicPort ≠ 0 then
        [] ++ [{ port := options1.HTTPPublicPort, protocol := Protocol.HTTPPublic }]
      else []
    if servers.length = 0 then
      (none, some (Error.errorf "at least one server must be specified"))
    else (some { servers := servers }, none)

end Gatekeeper

namespace EventPlugin

open Gatekeeper

/-! ## The RPC server of the event plugin (`plugin/event/plugin_rpc.go`) -/

/-- Modelled from the spec: the function `shared.NewError` is declared
outside the sources at hand; it wraps an error as a `*shared.Error` and is
nil on the nil error. -/
def NewError (err : Option Error) : Option Error := err

/-- The method `RPCServer.GeneralMetric` (lines 84-94), as the `Errs` of the
reply: an entry is appended for each metric on which the implementation
returns an error.  `impl` is the method `GeneralMetric` of the plugin
implementation. -/
def RPCServer.GeneralMetric {μ : Type} (impl : μ → Option Error) (metrics : List μ) :
    List (Option Error) :=
  metrics.foldl
    (fun errs metric =>
      match impl metric with
      | some err => errs ++ [NewError (some err)]
      | none => errs)
    []

/-- The method `RPCServer.RequestMetric` (lines 96-106), as the `Errs` of
the reply: the same loop over the request metrics. -/
def RPCServer.RequestMetric {μ : Type} (impl : μ → Option Error) (metrics : List μ) :
    List (Option Error) :=
  metrics.foldl
    (fun errs metric =>
      match impl metric with
      | some err => errs ++ [NewError (some err)]
      | none => errs)
    []

/-- The method `RPCServer.Error` (lines 108-118), as the `Errs` of the
reply.  The elements of `Errors` are pointers and may be nil.  The
implementation is called on each element; the test of line 111 is
`err != nil` on the element, not on the result `implErr` of the
implementation, and `shared.NewError(implErr)` is appended when the
element is not nil. -/
def RPCServer.Error (impl : Option Error → Option Error) (errors : List (Option Error)) :
    List (Option Error) :=
  errors.foldl
    (fun errs err =>
      let implErr := impl err
      if err ≠ none then errs ++ [NewError implErr] else errs)
    []

end EventPlugin

namespace SimpleLoadBalancer

open Gatekeeper

/-! ## The simple load balancer (`plugins/simple-loadbalancer/main.go`) -/

/-- Modelled from the spec: the value `shared.NilBackend` is declared
outside the sources at hand; it is the backend returned next to an error,
the zero value of `shared.Backend`. -/
def NilBackend : Backend := Backend.zero

/-- The struct `LoadBalancer`: the backends of each upstream, in order. -/
structure LoadBalancer where
  upstreamBackends : GoMap UpstreamID (List Backend)
deriving DecidableEq, Repr

/-- The pool `NewLoadBalancer` builds. -/
def NewLoadBalancer : LoadBalancer := ⟨GoMap.empty⟩

/-- The method `AddBackend` (lines 40-48): an empty list is made if the
upstream has none, and the backend is appended to the upstream's list
(under the comment "TODO: handle duplicate backends here").  The returned
error is always nil. -/
def LoadBalancer.AddBackend (l : LoadBalancer) (upstream : UpstreamID) (backend : Backend) :
    LoadBalancer × Option Error :=
  let m1 :=
    if l.upstreamBackends.contains upstream then l.upstreamBackends
    else l.upstreamBackends.store upstream []
  (⟨m1.store upstream ((m1.lookup upstream).getD [] ++ [backend])⟩, none)

/-- The inner loop of `RemoveBackend` (lines 54-63) over one list: at the
first backend equal to `deleted` the list without that element is
returned (`append(backends[:idx], backends[idx+1:]...)`) and the loop
breaks; `none` when no element is equal to `deleted`. -/
def removeFirst (deleted : Backend) : List Backend → Option (List Backend)
  | [] => none
  | backend :: rest =>
    if backend ≠ deleted then (removeFirst deleted rest).map (fun r => backend :: r)
    else some rest

/-- One turn of the outer loop of `RemoveBackend` (lines 53-64), on the map
and the flag `found`: when the list of the entry holds `deleted`, the list
without its first occurrence is stored under the upstream and `found` is
set. -/
def removeFrom (deleted : Backend) (acc : GoMap UpstreamID (List Backend) × Bool)
    (entry : UpstreamID × List Backend) : GoMap UpstreamID (List Backend) × Bool :=
  match removeFirst deleted entry.2 with
  | some backends => (acc.1.store entry.1 backends, true)
  | none => acc

/-- The method `RemoveBackend` (lines 50-70).  `visit` is the order in which
the `range` over `upstreamBackends` yields the entries.  In each list the
first backend equal to `deleted` is removed; if no list held one the call
fails with "Did not find backend". -/
def LoadBalancer.RemoveBackend (l : LoadBalancer) (visit : List (UpstreamID × List Backend))
    (deleted : Backend) : LoadBalancer × Option Error :=
  let final := visit.foldl (removeFrom deleted) (l.upstreamBackends, false)
  if final.2 then (⟨final.1⟩, none)
  else (⟨final.1⟩, some (Error.errorf "Did not find backend"))

/-- The method `GetBackend` (lines 72-83).  `intn` is `rand.Intn` of
`math/rand`.  The result is `none` when the index expression
`backends[idx]` is out of range (a run-time panic). -/
def LoadBalancer.GetBackend (l : LoadBalancer) (intn : Nat → Nat) (upstream : UpstreamID) :
    Option (Backend × Option Error) :=
  match l.upstreamBackends.lookup upstream with
  | none => some (NilBackend, some (Error.errorf "UPSTREAM_NOT_FOUND"))
  | some backends =>
    if backends.length = 0 then some (NilBackend, some (Error.errorf "NO_BACKENDS_FOUND"))
    else
      match backends.get? (intn backends.length) with
      | some backend => some (backend, none)
      | none => none

end SimpleLoadBalancer

namespace Gatekeeper

/-! ## States and inputs used in the examples -/

/-- A broadcaster whose `Publish` always succeeds. -/
def okBroadcaster : UpstreamEvent → Option Error := fun _ => none

/-- A publisher that has seen the upstreams `u1` and `u2`. -/
def publisherTwo : UpstreamPublisher :=
  ⟨⟨[("u1", ()), ("u2", ())]⟩, GoMap.empty⟩

/-- An upstream that came from a plugin without an ID. -/
def upstreamNoID : Upstream := ⟨NilUpstreamID, "web", ["api.test"], []⟩

/-- An upstream with an ID. -/
def upstreamWeb : Upstream := ⟨"u1", "web", ["api.test"], []⟩

/-- A backend with an ID. -/
def backendOne : Backend := ⟨"b1", "http://127.0.0.1:9001"⟩

/-- The publisher after `AddUpstream(upstreamWeb)` on a new publisher. -/
def publisherWeb : UpstreamPublisher :=
  (NewUpstreamPublisher.AddUpstream okBroadcaster upstreamWeb).publisher

/-- The event the publisher builds in `AddUpstream`. -/
def added (u : Upstream) : UpstreamEvent :=
  { EventType := EventType.UpstreamAdded, Upstream := some u, UpstreamID := u.ID }

/-- The event the publisher builds in `RemoveUpstream`. -/
def removed (upstreamID : UpstreamID) : UpstreamEvent :=
  { EventType := EventType.UpstreamRemoved, UpstreamID := upstreamID }

/-- A second upstream, `u2`, with the hostname of `upstreamWeb`. -/
def upstreamTwin : Upstream := ⟨"u2", "twin", ["api.test"], []⟩

/-- An upstream `u2` with a path prefix and no hostname. -/
def upstreamApi : Upstream := ⟨"u2", "api", [], ["/api"]⟩

/-- The upstream `u1` announced again with another hostname. -/
def upstreamMoved : Upstream := ⟨"u1", "web", ["www.test"], []⟩

/-- A request for the host of `upstreamWeb` under the prefix of
`upstreamApi`. -/
def requestBoth : Request := ⟨"api.test", "/api", "/api/v1"⟩

/-- A request for an unlisted host under the prefix of `upstreamApi`. -/
def requestApi : Request := ⟨"other.test", "/api", "/api/v1"⟩

/-- A request for the host of `upstreamWeb` under an unlisted prefix. -/
def requestWeb : Request := ⟨"api.test", "/x", "/x/y"⟩

/-- The matcher after `UpstreamAdded(upstreamWeb)`. -/
def matcherWeb : upstreamMatcher :=
  NewUpstreamMatcher.listenAll [Event.upstream (added upstreamWeb)]

/-- The matcher after `UpstreamAdded(upstreamWeb)` and one `Match` of a
request for its host, which fills the hostname cache. -/
def matcherWebCached : upstreamMatcher :=
  (matcherWeb.Match matcherWeb.knownUpstreams.entries requestWeb).1

/-- The matcher after `UpstreamAdded` of `upstreamWeb` and `upstreamApi`,
caches empty. -/
def matcherWebApi : upstreamMatcher :=
  NewUpstreamMatcher.listenAll
    [Event.upstream (added upstreamWeb), Event.upstream (added upstreamApi)]

/-- The matcher `matcherWebApi` after one `Match` of `requestApi`, which
fills the prefix cache. -/
def matcherApiCached : upstreamMatcher :=
  (matcherWebApi.Match matcherWebApi.knownUpstreams.entries requestApi).1

/-- The matcher after `UpstreamAdded` of `upstreamWeb` and `upstreamTwin`,
which list the same hostname; caches empty. -/
def matcherTwins : upstreamMatcher :=
  NewUpstreamMatcher.listenAll
    [Event.upstream (added upstreamWeb), Event.upstream (added upstreamTwin)]

/-- The matcher after `UpstreamAdded(upstreamTwin)` and one `Match` of a
request for its host. -/
def matcherTwinCached : upstreamMatcher :=
  ((NewUpstreamMatcher.listenAll [Event.upstream (added upstreamTwin)]).Match
    [("u2", some upstreamTwin)] requestWeb).1

/-- The matcher `matcherWebCached` after `upstreamMoved` replaced
`upstreamWeb` under the ID `u1`. -/
def matcherStale : upstreamMatcher :=
  matcherWebCached.listener (Event.upstream (added upstreamMoved))

/-- The matcher after `UpstreamAdded(upstreamWeb)` and
`UpstreamRemoved(u1)`: the nil pointer of the second event is stored under
`u1`. -/
def matcherRemoved : upstreamMatcher :=
  NewUpstreamMatcher.listenAll
    [Event.upstream (added upstreamWeb), Event.upstream (removed "u1")]

/-- A request for the host of `upstreamWeb` in other letter case. -/
def requestUpper : Request := ⟨"API.Test", "/x", "/x/y"⟩

end Gatekeeper

namespace Core

/-- An `UpstreamAdded` event of package `core`. -/
def eventAdded : UpstreamEvent := { Event := EventKind.UpstreamAddedEvent, UpstreamID := "u1" }

/-- A broadcaster with two listeners, on the channels 1 and 2, registered
for `UpstreamAddedEvent`. -/
def broadcasterTwo : broadcaster :=
  ⟨⟨[(EventKind.UpstreamAddedEvent, ⟨[("l1", 1), ("l2", 2)]⟩)]⟩⟩

/-- A new broadcaster after `AddListener(ch1, [UpstreamAddedEvent])`, which
was given the ID `a`. -/
def broadcasterOnce : broadcaster :=
  (NewBroadcaster.AddListener "a" 1 [EventKind.UpstreamAddedEvent]).1

/-- The broadcaster `broadcasterOnce` after a second
`AddListener(ch1, [UpstreamAddedEvent])`, which was given the ID `b`. -/
def broadcasterTwice : broadcaster :=
  (broadcasterOnce.AddListener "b" 1 [EventKind.UpstreamAddedEvent]).1

/-- A request as the handler receives it. -/
def requestV1 : Request :=
  { Host := "api.test", Prefix := "/api", Path := "/api/v1", PrefixlessPath := "/v1" }

/-- An early response a modifier may attach to a request. -/
def responseMoved : Response := { StatusCode := 302, Body := "moved" }

/-- A server, not draining, all of whose collaborators succeed. -/
def serverOk : server :=
  { stopAccepting := false
    RouteRequest := fun req => (Gatekeeper.upstreamWeb, req, none)
    GetBackend := fun _ => (some Gatekeeper.backendOne, none)
    ModifyRequest := fun req => (req, none)
    ModifyErrorResponse := fun _ _ response => (response, none)
    Proxy := fun _ _ _ metric => (metric, none) }

/-- The server `serverOk`, draining. -/
def serverDraining : server := { serverOk with stopAccepting := true }

/-- A server whose router finds no route. -/
def serverNoRoute : server :=
  { serverOk with
    RouteRequest := fun req => (Gatekeeper.Upstream.zero, req, some Error.RouteNotFoundError) }

/-- A server whose load balancer has no backend for the upstream. -/
def serverNoBackend : server :=
  { serverOk with GetBackend := fun _ => (none, some (Error.other "NO_BACKENDS_FOUND")) }

/-- A server whose request modifier fails. -/
def serverNoModify : server :=
  { serverOk with ModifyRequest := fun req => (req, some (Error.other "modifier failed")) }

/-- A server whose proxier fails. -/
def serverNoProxy : server :=
  { serverOk with Proxy := fun _ _ _ metric => (metric, some (Error.other "dial failed")) }

/-- A server whose request modifier attaches an early response. -/
def serverEarly : server :=
  { serverOk with
    ModifyRequest := fun req => ({ req with Response := some responseMoved }, none) }

end Core

namespace SimpleLoadBalancer

open Gatekeeper

/-- A new pool after `AddBackend("u1", backendOne)`. -/
def poolOnce : LoadBalancer := (NewLoadBalancer.AddBackend "u1" backendOne).1

/-- The pool `poolOnce` after a second `AddBackend("u1", backendOne)`. -/
def poolTwice : LoadBalancer := (poolOnce.AddBackend "u1" backendOne).1

/-- A second backend. -/
def backendTwo : Backend := ⟨"b2", "http://127.0.0.1:9002"⟩

/-- A pool in which `u1` has two backends and `u2` has an empty list. -/
def poolMixed : LoadBalancer := ⟨⟨[("u1", [backendOne, backendTwo]), ("u2", [])]⟩⟩

end SimpleLoadBalancer

namespace Core

/-- A server whose `ModifyErrorResponse` fails. -/
def serverBadModifier : server :=
  { serverOk with
    ModifyErrorResponse := fun _ _ response => (response, some (Error.other "plugin crashed")) }

/-- The `UpstreamAdded` event of package `core` for `upstreamWeb`. -/
def eventWebAdded : UpstreamEvent :=
  { Event := EventKind.UpstreamAddedEvent, Upstream := some Gatekeeper.upstreamWeb,
    UpstreamID := "u1" }

/-- The `UpstreamRemoved` event of package `core` for `upstreamWeb`. -/
def eventWebRemoved : UpstreamEvent :=
  { Event := EventKind.UpstreamRemovedEvent, UpstreamID := "u1" }

/-- A local router whose table holds `upstreamWeb` (by hostname) and
`upstreamApi` (by prefix), caches empty. -/
def routerTwo : localRouter :=
  ⟨⟨[("u1", Gatekeeper.upstreamWeb), ("u2", Gatekeeper.upstreamApi)]⟩, GoMap.empty, GoMap.empty⟩

/-- A request for an unlisted host under the prefix of `upstreamApi`. -/
def requestOther : Request :=
  { Host := "other.test", Prefix := "/api", Path := "/api/v1", PrefixlessPath := "/v1" }

end Core

namespace Gatekeeper

/-- An `exec.LookPath` that finds every binary. -/
def lookPathOk : String → Except Error String := fun path => Except.ok path

/-- Options that pass `Validate`, with `HTTPInternalPort` set and
`HTTPPublicPort` zero. -/
def optionsInternal : Options :=
  { UpstreamPlugins := ["static-upstreams"], UpstreamPluginsCount := 1,
    LoadBalancerPlugin := "simple-loadbalancer", LoadBalancerPluginsCount := 1,
    RequestPlugins := [], RequestPluginsCount := 1,
    HTTPPublicPort := 0, HTTPInternalPort := 8001 }

/-- Options that pass `Validate`, with both ports set. -/
def optionsBoth : Options := { optionsInternal with HTTPPublicPort := 8000 }

end Gatekeeper

namespace EventPlugin

open Gatekeeper

/-- A plugin implementation whose `Error` accepts every error. -/
def implAccept : Option Error → Option Error := fun _ => none

/-- A plugin implementation whose `Error` rejects every error. -/
def implReject : Option Error → Option Error := fun _ => some (Error.errorf "rejected")

end EventPlugin

/-! ## Facts about `GoMap` -/

namespace GoMap

variable {κ α : Type} [DecidableEq κ]

theorem lookup_delete (m : GoMap κ α) (k k' : κ) :
    (m.delete k).lookup k' = if k = k' then none else m.lookup k' := by
  obtain ⟨l⟩ := m
  simp only [lookup, delete]
  induction l with
  | nil => simp
  | cons e rest ih =>
    by_cases h1 : e.1 = k
    · have hf : List.filter (fun e => decide (e.1 ≠ k)) (e :: rest)
          = List.filter (fun e => decide (e.1 ≠ k)) rest := by
        simp [List.filter_cons, h1]
      rw [hf, ih]
      by_cases h2 : k = k'
      · simp [h2]
      · have h3 : ¬ e.1 = k' := fun h => h2 (h1.symm.trans h)
        simp [h2, List.find?_cons, h3]
    · have hf : List.filter (fun e => decide (e.1 ≠ k)) (e :: rest)
          = e :: List.filter (fun e => decide (e.1 ≠ k)) rest := by
        simp [List.filter_cons, h1]
      rw [hf]
      by_cases h3 : e.1 = k'
      · have h2 : ¬ k = k' := fun h => h1 (h3.trans h.symm)
        simp [List.find?_cons, h3, h2]
      · have e1 : List.find? (fun e => decide (e.1 = k'))
            (e :: List.filter (fun e => decide (e.1 ≠ k)) rest)
            = List.find? (fun e => decide (e.1 = k'))
              (List.filter (fun e => decide (e.1 ≠ k)) rest) := by
          simp [List.find?_cons, h3]
        have e2 : List.find? (fun e => decide (e.1 = k')) (e :: rest)
            = List.find? (fun e => decide (e.1 = k')) rest := by
          simp [List.find?_cons, h3]
        rw [e1, e2, ih]

theorem lookup_store (m : GoMap κ α) (k k' : κ) (v : α) :
    (m.store k v).lookup k' = if k = k' then some v else m.lookup k' := by
  have hd := lookup_delete m k k'
  simp only [lookup, store, List.find?_append] at hd ⊢
  by_cases h : k = k'
  · subst h
    simp only [if_true] at hd ⊢
    cases hf : List.find? (fun e => decide (e.1 = k)) (m.delete k).entries with
    | none => simp [List.find?_cons]
    | some x => rw [hf] at hd; simp at hd
  · simp only [if_neg h] at hd ⊢
    rw [← hd]
    cases hf : List.find? (fun e => decide (e.1 = k')) (m.delete k).entries with
    | none => simp [List.find?_cons, h]
    | some x => simp

theorem contains_iff_mem_keys (m : GoMap κ α) (k : κ) :
    m.contains k = true ↔ k ∈ m.keys := by
  obtain ⟨l⟩ := m
  simp only [contains, lookup, keys, Option.isSome_map', List.find?_isSome, List.mem_map]
  constructor
  · rintro ⟨e, he, hk⟩
    exact ⟨e, he, by simpa using hk⟩
  · rintro ⟨e, he, hk⟩
    exact ⟨e, he, by simpa using hk⟩

theorem lookup_eq_none_iff (m : GoMap κ α) (k : κ) :
    m.lookup k = none ↔ k ∉ m.keys := by
  rw [← contains_iff_mem_keys, contains]
  cases m.lookup k <;> simp

theorem mem_entries_delete (m : GoMap κ α) (k : κ) (e : κ × α) :
    e ∈ (m.delete k).entries ↔ e ∈ m.entries ∧ e.1 ≠ k := by
  simp [delete, List.mem_filter]

theorem mem_entries_store (m : GoMap κ α) (k : κ) (v : α) (e : κ × α) :
    e ∈ (m.store k v).entries ↔ (e ∈ m.entries ∧ e.1 ≠ k) ∨ e = (k, v) := by
  simp [store, mem_entries_delete]

theorem mem_keys_delete (m : GoMap κ α) (k k' : κ) :
    k' ∈ (m.delete k).keys ↔ k' ∈ m.keys ∧ k' ≠ k := by
  simp only [keys, List.mem_map]
  constructor
  · rintro ⟨e, he, rfl⟩
    rw [mem_entries_delete] at he
    exact ⟨⟨e, he.1, rfl⟩, he.2⟩
  · rintro ⟨⟨e, he, rfl⟩, hne⟩
    exact ⟨e, (mem_entries_delete m k e).2 ⟨he, hne⟩, rfl⟩

theorem mem_keys_store (m : GoMap κ α) (k k' : κ) (v : α) :
    k' ∈ (m.store k v).keys ↔ k' = k ∨ k' ∈ m.keys := by
  simp only [keys, List.mem_map]
  constructor
  · rintro ⟨e, he, rfl⟩
    rw [mem_entries_store] at he
    rcases he with ⟨he, _⟩ | rfl
    · exact Or.inr ⟨e, he, rfl⟩
    · exact Or.inl rfl
  · intro h
    by_cases hk : k' = k
    · exact ⟨(k, v), (mem_entries_store m k v _).2 (Or.inr rfl), hk.symm⟩
    · rcases h with h | ⟨e, he, rfl⟩
      · exact absurd h hk
      · exact ⟨e, (mem_entries_store m k v e).2 (Or.inl ⟨he, hk⟩), rfl⟩

end GoMap

/-! ## The upstream publisher -/

namespace Gatekeeper

/-- C7. With a broadcaster whose `Publish` succeeds, `RemoveUpstream(id)`
returns an error iff `id` is not in `knownUpstreams`; on that error nothing
is published and the publisher (both ID sets) is unchanged; otherwise
exactly one `UpstreamRemoved` event carrying `id` is published, `id` is no
longer in `knownUpstreams`, every other ID is known afterwards iff it was
known before, and `knownBackends` is unchanged. -/
theorem RemoveUpstream_error_iff_unknown (p : UpstreamPublisher)
    (bc : UpstreamEvent → Option Error) (upstreamID : UpstreamID)
    (hbc : ∀ e, bc e = none) :
    ((p.RemoveUpstream bc upstreamID).err ≠ none ↔ upstreamID ∉ p.knownUpstreams.keys) ∧
    (upstreamID ∉ p.knownUpstreams.keys →
      (p.RemoveUpstream bc upstreamID).published = [] ∧
      (p.RemoveUpstream bc upstreamID).publisher = p) ∧
    (upstreamID ∈ p.knownUpstreams.keys →
      (p.RemoveUpstream bc upstreamID).published =
        [{ EventType := EventType.UpstreamRemoved, UpstreamID := upstreamID }] ∧
      upstreamID ∉ (p.RemoveUpstream bc upstreamID).publisher.knownUpstreams.keys ∧
      (∀ k, k ≠ upstreamID →
        (k ∈ (p.RemoveUpstream bc upstreamID).publisher.knownUpstreams.keys ↔
          k ∈ p.knownUpstreams.keys)) ∧
      (p.RemoveUpstream bc upstreamID).publisher.knownBackends = p.knownBackends) := by
  by_cases hk : upstreamID ∈ p.knownUpstreams.keys
  · have hc : p.knownUpstreams.contains upstreamID = true :=
      (GoMap.contains_iff_mem_keys _ _).2 hk
    have hr : p.RemoveUpstream bc upstreamID =
        ⟨{ p with knownUpstreams := p.knownUpstreams.delete upstreamID },
          [{ EventType := EventType.UpstreamRemoved, UpstreamID := upstreamID }], none⟩ := by
      simp [UpstreamPublisher.RemoveUpstream, UpstreamPublisher.publish, hc, hbc]
    rw [hr]
    refine ⟨by simp [hk], fun h => absurd hk h, fun _ => ⟨rfl, ?_, ?_, rfl⟩⟩
    · simp [GoMap.mem_keys_delete]
    · intro k hne
      simp [GoMap.mem_keys_delete, hne]
  · have hc : p.knownUpstreams.contains upstreamID = false := by
      cases h : p.knownUpstreams.contains upstreamID
      · rfl
      · exact absurd ((GoMap.contains_iff_mem_keys _ _).1 h) hk
    have hr : p.RemoveUpstream bc upstreamID =
        ⟨p, [], some (Error.errorf "UPSTREAM_NOT_FOUND")⟩ := by
      simp [UpstreamPublisher.RemoveUpstream, hc]
    rw [hr]
    exact ⟨by simp [hk], fun _ => ⟨rfl, rfl⟩, fun h => absurd h hk⟩

/-- C7, at a publisher that knows `u1` and `u2`: removing `u1` publishes
one event and keeps `u2`. -/
theorem RemoveUpstream_error_iff_unknown_witness :
    (∀ e, okBroadcaster e = none) ∧
    (publisherTwo.RemoveUpstream okBroadcaster "u1").published =
      [{ EventType := EventType.UpstreamRemoved, UpstreamID := "u1" }] ∧
    (publisherTwo.RemoveUpstream okBroadcaster "u1").publisher.knownUpstreams.keys = ["u2"] :=
  ⟨fun _ => rfl,
    ((RemoveUpstream_error_iff_unknown publisherTwo okBroadcaster "u1"
      (fun _ => rfl)).2.2 (by decide)).1,
    by decide⟩

/-- C8 (defect). `AddUpstream` on an upstream that carries the nil ID mints
nothing: it records the nil ID itself in `knownUpstreams` and publishes an
`UpstreamAdded` event whose `UpstreamID` is the nil ID; it returns only an
error value (here nil), no ID. -/
theorem AddUpstream_records_nil_ID :
    (NewUpstreamPublisher.AddUpstream okBroadcaster upstreamNoID).publisher.knownUpstreams.keys
      = [NilUpstreamID] ∧
    (NewUpstreamPublisher.AddUpstream okBroadcaster upstreamNoID).published
      = [{ EventType := EventType.UpstreamAdded, Upstream := some upstreamNoID,
           UpstreamID := NilUpstreamID }] ∧
    (NewUpstreamPublisher.AddUpstream okBroadcaster upstreamNoID).err = none := by
  decide

/-- No publisher method writes `knownBackends`. -/
theorem step_knownBackends (p : UpstreamPublisher) (bc : UpstreamEvent → Option Error)
    (c : Call) : (p.step bc c).knownBackends = p.knownBackends := by
  cases c <;>
    simp only [UpstreamPublisher.step, UpstreamPublisher.AddUpstream,
      UpstreamPublisher.RemoveUpstream, UpstreamPublisher.AddBackend,
      UpstreamPublisher.RemoveBackend, UpstreamPublisher.publish] <;>
    repeat' split
  all_goals rfl

/-- Whatever calls a new publisher has served, `knownBackends` is empty. -/
theorem run_knownBackends (bc : UpstreamEvent → Option Error) (calls : List Call) :
    (NewUpstreamPublisher.run bc calls).knownBackends = GoMap.empty := by
  have h : ∀ (cs : List Call) (p : UpstreamPublisher),
      (p.run bc cs).knownBackends = p.knownBackends := by
    intro cs
    induction cs with
    | nil => intro p; rfl
    | cons c cs ih =>
      intro p
      show ((p.step bc c).run bc cs).knownBackends = p.knownBackends
      rw [ih, step_knownBackends]
  rw [h]; rfl

/-- C9 (defect). On a publisher that knows the upstream `u1`,
`AddBackend("u1", b1)` returns no error and publishes `BackendAdded`, but
`b1` is not recorded in `knownBackends`; the following `RemoveBackend("b1")`
fails with `BACKEND_NOT_FOUND` and publishes nothing. -/
theorem RemoveBackend_fails_after_AddBackend :
    (publisherWeb.AddBackend okBroadcaster "u1" backendOne).err = none ∧
    (publisherWeb.AddBackend okBroadcaster "u1" backendOne).published =
      [{ EventType := EventType.BackendAdded, UpstreamID := "u1", BackendID := "b1",
         Backend := backendOne }] ∧
    (publisherWeb.AddBackend okBroadcaster "u1" backendOne).publisher.knownBackends.contains "b1"
      = false ∧
    (publisherWeb.AddBackend okBroadcaster "u1" backendOne).publisher.RemoveBackend
        okBroadcaster "b1"
      = ⟨publisherWeb, [], some (Error.errorf "BACKEND_NOT_FOUND")⟩ := by
  decide

end Gatekeeper

/-! ## The event broadcaster -/

namespace Core

theorem validSchedule_prompt (n : Nat) : validSchedule n promptSchedule :=
  fun i hi => ⟨Nat.le_refl i, hi⟩

theorem validSchedule_late (n : Nat) : validSchedule n (lateSchedule n) := by
  intro i hi
  simp only [lateSchedule]
  omega

/-- Reading a list back by its indices gives the list. -/
theorem filterMap_range_get? {β γ : Type} (f : β → γ) (l : List β) :
    (List.range l.length).filterMap (fun i => (l.get? i).map f) = l.map f := by
  induction l using List.reverseRecOn with
  | nil => rfl
  | append_singleton l a ih =>
    have hcongr : List.filterMap (fun i => ((l ++ [a]).get? i).map f) (List.range l.length)
        = List.filterMap (fun i => (l.get? i).map f) (List.range l.length) := by
      apply List.filterMap_congr
      intro i hi
      have hi' : i < l.length := List.mem_range.1 hi
      simp only [List.get?_eq_getElem?]
      rw [List.getElem?_append_left hi']
    rw [List.length_append, List.length_singleton, List.range_succ, List.filterMap_append,
      hcongr, ih]
    simp [List.get?_eq_getElem?]

/-- When every goroutine runs before the next iteration begins, `Publish`
sends the event once on the channel of each listener registered for its
kind, and nothing when the kind has no entry. -/
theorem Publish_promptSchedule (b : broadcaster) (visit : List (ListenerID × EventCh))
    (event : UpstreamEvent) :
    (b.Publish visit promptSchedule event).2 =
      if (b.eventListeners.lookup event.Type).isSome
      then visit.map (fun l => (l.2, event)) else [] := by
  unfold broadcaster.Publish
  cases b.eventListeners.lookup event.Type with
  | none => simp
  | some ls =>
    simp only [Option.isSome_some, if_true, promptSchedule]
    exact filterMap_range_get? (fun l => (l.2, event)) visit

/-- C10 (defect). Two listeners, on the channels 1 and 2, are registered for
`UpstreamAddedEvent`; `range` visits them in that order and both goroutines
run after the loop has ended.  `Publish` then sends the event twice on
channel 2 and never on channel 1. -/
theorem Publish_sends_twice_to_last_listener :
    broadcasterTwo.eventListeners.lookup eventAdded.Type = some ⟨[("l1", 1), ("l2", 2)]⟩ ∧
    validSchedule 2 (lateSchedule 2) ∧
    (broadcasterTwo.Publish [("l1", 1), ("l2", 2)] (lateSchedule 2) eventAdded).2
      = [(2, eventAdded), (2, eventAdded)] :=
  ⟨by decide, validSchedule_late 2, by decide⟩

end Core

/-! ## The upstream matcher -/

namespace Gatekeeper

/-- The hostname test does not look at the case of the letters. -/
theorem HasHostname_ignores_case :
    upstreamWeb.HasHostname "API.Test" = true ∧ upstreamWeb.HasHostname "www.test" = false := by
  decide

/-- The result of a failed `Match`. -/
theorem scan_nil (r : upstreamMatcher) (hostname pfx : String) :
    (r.scan hostname pfx []).2 =
      some ⟨none, UpstreamMatchType.NilUpstreamMatch, some Error.UpstreamNotFoundError⟩ := rfl

/-- Over entries none of which is nil, the scan returns the first visited
upstream that has the hostname or the prefix, as a hostname match when it
has the hostname. -/
theorem scan_result (r : upstreamMatcher) (hostname pfx : String)
    (ups : List (UpstreamID × Upstream)) :
    (r.scan hostname pfx (ups.map pointTo)).2 =
      match ups.find? (fun e => e.2.HasHostname hostname || e.2.HasPrefix pfx) with
      | none =>
        some ⟨none, UpstreamMatchType.NilUpstreamMatch, some Error.UpstreamNotFoundError⟩
      | some e =>
        some ⟨some e.2,
          if e.2.HasHostname hostname then UpstreamMatchType.HostnameUpstreamMatch
          else UpstreamMatchType.PrefixUpstreamMatch, none⟩ := by
  induction ups with
  | nil => rfl
  | cons e rest ih =>
    obtain ⟨id, u⟩ := e
    by_cases hh : u.HasHostname hostname = true
    · simp [pointTo, upstreamMatcher.scan, hh, List.find?_cons]
    · by_cases hp : u.HasPrefix pfx = true
      · simp [pointTo, upstreamMatcher.scan, hh, hp, List.find?_cons]
      · simp only [List.map_cons, pointTo, upstreamMatcher.scan, hh, hp, List.find?_cons,
          Bool.or_self, if_false, Bool.false_eq_true]
        simpa [pointTo] using ih

/-- A list of entries none of which is nil is a list of upstreams. -/
theorem exists_pointTo (visit : List (UpstreamID × Option Upstream))
    (hnil : ∀ e ∈ visit, e.2 ≠ none) :
    ∃ ups : List (UpstreamID × Upstream), visit = ups.map pointTo := by
  induction visit with
  | nil => exact ⟨[], rfl⟩
  | cons e rest ih =>
    obtain ⟨ups, hups⟩ := ih (fun x hx => hnil x (List.mem_cons_of_mem _ hx))
    obtain ⟨id, p⟩ := e
    cases p with
    | none => exact absurd rfl (hnil (id, none) (List.mem_cons_self _ _))
    | some u => exact ⟨(id, u) :: ups, by rw [hups]; rfl⟩

/-- The scan writes no entry of `knownUpstreams`. -/
theorem scan_knownUpstreams (r : upstreamMatcher) (hostname pfx : String)
    (visit : List (UpstreamID × Option Upstream)) :
    (r.scan hostname pfx visit).1.knownUpstreams = r.knownUpstreams := by
  induction visit with
  | nil => rfl
  | cons e rest ih =>
    obtain ⟨id, p⟩ := e
    cases p with
    | none => rfl
    | some u =>
      simp only [upstreamMatcher.scan]
      split
      · rfl
      · split
        · rfl
        · exact ih

/-- The scan panics on a nil entry that it reaches. -/
theorem scan_panics_on_nil (r : upstreamMatcher) (hostname pfx : String)
    (id : UpstreamID) (rest : List (UpstreamID × Option Upstream)) :
    (r.scan hostname pfx ((id, none) :: rest)).2 = none := rfl

/-- On a miss of both caches `Match` is the scan. -/
theorem Match_eq_scan (r : upstreamMatcher) (visit : List (UpstreamID × Option Upstream))
    (req : Request)
    (hh : req.Host = "" ∨ r.upstreamsByHostname.lookup req.Host = none)
    (hp : req.Prefix = "" ∨ r.upstreamsByPrefix.lookup req.Prefix = none) :
    r.Match visit req = r.scan req.Host req.Prefix visit := by
  have e1 : (if req.Host ≠ "" then r.upstreamsByHostname.lookup req.Host else none) = none := by
    rcases hh with h | h
    · simp [h]
    · simp [h]
  have e2 : (if req.Prefix ≠ "" then r.upstreamsByPrefix.lookup req.Prefix else none) = none := by
    rcases hp with h | h
    · simp [h]
    · simp [h]
  simp only [upstreamMatcher.Match, e1, e2]

/-- On a hit of the hostname cache `Match` returns the cached pointer. -/
theorem Match_hostname_hit (r : upstreamMatcher) (visit : List (UpstreamID × Option Upstream))
    (req : Request) (c : Option Upstream) (hne : req.Host ≠ "")
    (hh : r.upstreamsByHostname.lookup req.Host = some c) :
    r.Match visit req = (r, some ⟨c, UpstreamMatchType.HostnameUpstreamMatch, none⟩) := by
  simp [upstreamMatcher.Match, hne, hh]

/-- On a miss of the hostname cache and a hit of the prefix cache `Match`
returns the pointer of the prefix cache. -/
theorem Match_prefix_hit (r : upstreamMatcher) (visit : List (UpstreamID × Option Upstream))
    (req : Request) (c : Option Upstream)
    (hh : req.Host = "" ∨ r.upstreamsByHostname.lookup req.Host = none)
    (hne : req.Prefix ≠ "") (hp : r.upstreamsByPrefix.lookup req.Prefix = some c) :
    r.Match visit req = (r, some ⟨c, UpstreamMatchType.PrefixUpstreamMatch, none⟩) := by
  have e1 : (if req.Host ≠ "" then r.upstreamsByHostname.lookup req.Host else none) = none := by
    rcases hh with h | h
    · simp [h]
    · simp [h]
  simp [upstreamMatcher.Match, e1, hne, hp]

/-- The keys after one turn of the listener: the keys before, and the ID of
the event when it is an `UpstreamAdded` or an `UpstreamRemoved` event with
a non-nil ID. -/
theorem mem_keys_listener (r : upstreamMatcher) (rawEvent : Event) (k : UpstreamID) :
    k ∈ (r.listener rawEvent).knownUpstreams.keys ↔
      k ∈ r.knownUpstreams.keys ∨
      (k ≠ NilUpstreamID ∧ ∃ ev, rawEvent = Event.upstream ev ∧ ev.UpstreamID = k ∧
        (ev.EventType = EventType.UpstreamAdded ∨ ev.EventType = EventType.UpstreamRemoved)) := by
  cases rawEvent with
  | other => simp [upstreamMatcher.listener]
  | upstream ev =>
    have hadd : k ∈ (r.addUpstream ev).knownUpstreams.keys ↔
        k ∈ r.knownUpstreams.keys ∨ (k ≠ NilUpstreamID ∧ ev.UpstreamID = k) := by
      unfold upstreamMatcher.addUpstream
      by_cases hnil : ev.UpstreamID = NilUpstreamID
      · rw [if_pos hnil]
        constructor
        · exact Or.inl
        · rintro (h | ⟨h1, h2⟩)
          · exact h
          · exact absurd (h2.symm.trans hnil) h1
      · rw [if_neg hnil]
        simp only [GoMap.mem_keys_store]
        constructor
        · rintro (h | h)
          · exact Or.inr ⟨h ▸ hnil, h.symm⟩
          · exact Or.inl h
        · rintro (h | ⟨_, h⟩)
          · exact Or.inr h
          · exact Or.inl h.symm
    simp only [upstreamMatcher.listener, Event.upstream.injEq, exists_eq_left']
    by_cases h1 : ev.EventType = EventType.UpstreamAdded
    · simp only [h1, if_true, hadd, true_or, and_true]
    · by_cases h2 : ev.EventType = EventType.UpstreamRemoved
      · rw [if_neg h1, if_pos h2, hadd]
        simp only [h2, or_true, and_true]
      · simp [h1, h2]

/-- The keys after a sequence of events: the keys before, and the non-nil
ID of every `UpstreamAdded` and of every `UpstreamRemoved` event of the
sequence.  No event takes a key away. -/
theorem mem_keys_listenAll (events : List Event) (r : upstreamMatcher) (k : UpstreamID) :
    k ∈ (r.listenAll events).knownUpstreams.keys ↔
      k ∈ r.knownUpstreams.keys ∨
      (k ≠ NilUpstreamID ∧ ∃ ev, Event.upstream ev ∈ events ∧ ev.UpstreamID = k ∧
        (ev.EventType = EventType.UpstreamAdded ∨ ev.EventType = EventType.UpstreamRemoved)) := by
  induction events generalizing r with
  | nil => simp [upstreamMatcher.listenAll]
  | cons e rest ih =>
    have hstep : (r.listenAll (e :: rest)) = (r.listener e).listenAll rest := rfl
    rw [hstep, ih, mem_keys_listener]
    constructor
    · rintro ((h | ⟨hk, ev, rfl, h2, h3⟩) | ⟨hk, ev, hmem, h2, h3⟩)
      · exact Or.inl h
      · exact Or.inr ⟨hk, ev, List.mem_cons_self _ _, h2, h3⟩
      · exact Or.inr ⟨hk, ev, List.mem_cons_of_mem _ hmem, h2, h3⟩
    · rintro (h | ⟨hk, ev, hmem, h2, h3⟩)
      · exact Or.inl (Or.inl h)
      · rcases List.mem_cons.1 hmem with hm | hm
        · exact Or.inl (Or.inr ⟨hk, ev, hm.symm, h2, h3⟩)
        · exact Or.inr ⟨hk, ev, hm, h2, h3⟩

/-- C1 (defect). From the empty matcher, the listener processes
`UpstreamAdded(u1)` and then `UpstreamRemoved(u1)`: the key set of
`knownUpstreams` is still `{u1}`, where the claim has the empty set. -/
theorem listener_keeps_removed_upstream :
    (NewUpstreamMatcher.listenAll
      [Event.upstream (added upstreamWeb), Event.upstream (removed "u1")]).knownUpstreams.keys
      = ["u1"] := by
  decide

/-- After `UpstreamAdded(u1)` and `UpstreamRemoved(u1)` the pointer stored
under `u1` is the nil pointer of the second event, and a `Match` that scans
the known upstreams panics on it. -/
theorem Match_panics_after_removed :
    matcherRemoved.knownUpstreams.entries = [("u1", none)] ∧
    (matcherRemoved.Match matcherRemoved.knownUpstreams.entries requestWeb).2 = none := by
  decide

/-- Deleting a list of keys leaves exactly the entries under other keys. -/
theorem lookup_foldl_delete (keys : List String) (m : GoMap String (Option Upstream))
    (k : String) :
    (keys.foldl (fun m key => m.delete key) m).lookup k =
      if k ∈ keys then none else m.lookup k := by
  induction keys generalizing m with
  | nil => simp
  | cons key rest ih =>
    rw [List.foldl_cons, ih, GoMap.lookup_delete]
    by_cases h1 : k ∈ rest
    · simp [h1]
    · by_cases h2 : key = k
      · simp [h1, h2]
      · have h3 : ¬ k = key := fun h => h2 h.symm
        simp [h1, h2, h3]

/-- The method `removeUpstream`, which the listener never calls, forgets a
known upstream and drops the cache entries under its hostnames and
prefixes. -/
theorem removeUpstream_drops (r : upstreamMatcher) (event : UpstreamEvent) (upstr : Upstream)
    (hknown : r.knownUpstreams.lookup event.UpstreamID = some (some upstr)) :
    ∃ r', r.removeUpstream event = some r' ∧
      event.UpstreamID ∉ r'.knownUpstreams.keys ∧
      (∀ hostname ∈ upstr.Hostnames, r'.upstreamsByHostname.lookup hostname = none) ∧
      (∀ pfx ∈ upstr.Prefixes, r'.upstreamsByPrefix.lookup pfx = none) := by
  simp only [upstreamMatcher.removeUpstream, hknown]
  refine ⟨_, rfl, ?_, ?_, ?_⟩
  · simp [GoMap.mem_keys_delete]
  · intro hostname hmem
    simp only
    rw [lookup_foldl_delete, if_pos hmem]
  · intro pfx hmem
    simp only
    rw [lookup_foldl_delete, if_pos hmem]

/-- C2 (defect). The matcher knows `u1` and its hostname cache points to it
under `api.test`.  After the listener has processed `UpstreamRemoved(u1)`,
`u1` is still a key of `knownUpstreams` and the cache entry still points to
the removed upstream. -/
theorem listener_keeps_cache_of_removed_upstream :
    matcherWebCached.knownUpstreams.lookup "u1" = some (some upstreamWeb) ∧
    matcherWebCached.upstreamsByHostname.lookup "api.test" = some (some upstreamWeb) ∧
    (matcherWebCached.listener (Event.upstream (removed "u1"))).knownUpstreams.keys = ["u1"] ∧
    (matcherWebCached.listener (Event.upstream (removed "u1"))).upstreamsByHostname.lookup
      "api.test" = some (some upstreamWeb) := by
  decide

/-- A new matcher has sound caches. -/
theorem cachesSound_new : NewUpstreamMatcher.cachesSound :=
  ⟨fun _ _ h => by simp [NewUpstreamMatcher, GoMap.empty, GoMap.lookup] at h,
    fun _ _ h => by simp [NewUpstreamMatcher, GoMap.empty, GoMap.lookup] at h⟩

/-- The listener writes neither cache. -/
theorem listener_caches (r : upstreamMatcher) (rawEvent : Event) :
    (r.listener rawEvent).upstreamsByHostname = r.upstreamsByHostname ∧
    (r.listener rawEvent).upstreamsByPrefix = r.upstreamsByPrefix := by
  cases rawEvent with
  | other => exact ⟨rfl, rfl⟩
  | upstream ev =>
    simp only [upstreamMatcher.listener, upstreamMatcher.addUpstream]
    repeat' split
    all_goals exact ⟨rfl, rfl⟩

/-- The listener keeps the caches sound. -/
theorem cachesSound_listener (r : upstreamMatcher) (rawEvent : Event)
    (h : r.cachesSound) : (r.listener rawEvent).cachesSound := by
  unfold upstreamMatcher.cachesSound
  rw [(listener_caches r rawEvent).1, (listener_caches r rawEvent).2]
  exact h

/-- The scan keeps the caches sound. -/
theorem cachesSound_scan (r : upstreamMatcher) (hostname pfx : String)
    (visit : List (UpstreamID × Option Upstream)) (h : r.cachesSound) :
    (r.scan hostname pfx visit).1.cachesSound := by
  induction visit with
  | nil => exact h
  | cons e rest ih =>
    obtain ⟨id, p⟩ := e
    cases p with
    | none => exact h
    | some u =>
      simp only [upstreamMatcher.scan]
      split
      · rename_i hH
        refine ⟨?_, h.2⟩
        intro k c hk
        simp only [GoMap.lookup_store] at hk
        by_cases hkk : hostname = k
        · rw [if_pos hkk] at hk
          cases hk
          subst hkk
          exact ⟨u, rfl, hH⟩
        · rw [if_neg hkk] at hk
          exact h.1 k c hk
      · split
        · rename_i hP
          refine ⟨h.1, ?_⟩
          intro k c hk
          simp only [GoMap.lookup_store] at hk
          by_cases hkk : pfx = k
          · rw [if_pos hkk] at hk
            cases hk
            subst hkk
            exact ⟨u, rfl, hP⟩
          · rw [if_neg hkk] at hk
            exact h.2 k c hk
        · exact ih

/-- The method `Match` keeps the caches sound, so the caches of every
matcher reached from a new one by events and matches are sound. -/
theorem cachesSound_Match (r : upstreamMatcher) (visit : List (UpstreamID × Option Upstream))
    (req : Request) (h : r.cachesSound) : (r.Match visit req).1.cachesSound := by
  simp only [upstreamMatcher.Match]
  split
  · exact h
  · split
    · exact h
    · exact cachesSound_scan r req.Host req.Prefix visit h

end Gatekeeper

namespace Gatekeeper

/-- C3 (counterexample). The matcher knows `upstreamWeb`, which lists the
host `api.test`, and `upstreamApi`, which lists the prefix `/api`; an
earlier `Match` has cached `upstreamApi` under `/api`.  For a request with
host `api.test` and prefix `/api`, `Match` returns `upstreamApi` as a
prefix match, in either visiting order.  With empty caches it does the same
when `range` visits `upstreamApi` first. -/
theorem Match_prefix_cache_beats_hostname :
    ("u1", some upstreamWeb) ∈ matcherApiCached.knownUpstreams.entries ∧
    upstreamWeb.HasHostname requestBoth.Host = true ∧
    requestBoth.Host ∈ upstreamWeb.Hostnames ∧
    List.Perm [("u1", some upstreamWeb), ("u2", some upstreamApi)]
      matcherApiCached.knownUpstreams.entries ∧
    (matcherApiCached.Match [("u1", some upstreamWeb), ("u2", some upstreamApi)] requestBoth).2
      = some ⟨some upstreamApi, UpstreamMatchType.PrefixUpstreamMatch, none⟩ ∧
    List.Perm [("u2", some upstreamApi), ("u1", some upstreamWeb)]
      matcherApiCached.knownUpstreams.entries ∧
    (matcherApiCached.Match [("u2", some upstreamApi), ("u1", some upstreamWeb)] requestBoth).2
      = some ⟨some upstreamApi, UpstreamMatchType.PrefixUpstreamMatch, none⟩ ∧
    List.Perm [("u2", some upstreamApi), ("u1", some upstreamWeb)]
      matcherWebApi.knownUpstreams.entries ∧
    (matcherWebApi.Match [("u2", some upstreamApi), ("u1", some upstreamWeb)] requestBoth).2
      = some ⟨some upstreamApi, UpstreamMatchType.PrefixUpstreamMatch, none⟩ := by
  decide

/-- The scan returns a hostname match when the upstreams visited before the
first one that has the hostname are not nil and do not have the prefix. -/
theorem scan_hostname_first (r : upstreamMatcher) (hostname pfx : String)
    (pre post : List (UpstreamID × Option Upstream)) (id : UpstreamID) (u : Upstream)
    (hu : u.HasHostname hostname = true)
    (hpre : ∀ x ∈ pre, ∃ w, x.2 = some w ∧ w.HasPrefix pfx = false) :
    ∃ w, (r.scan hostname pfx (pre ++ (id, some u) :: post)).2
        = some ⟨some w, UpstreamMatchType.HostnameUpstreamMatch, none⟩ ∧
      w.HasHostname hostname = true := by
  induction pre with
  | nil => exact ⟨u, by simp [upstreamMatcher.scan, hu], hu⟩
  | cons x rest ih =>
    obtain ⟨xid, p⟩ := x
    obtain ⟨w, hw, hp⟩ := hpre (xid, p) (List.mem_cons_self _ _)
    simp only at hw
    subst hw
    by_cases hh : w.HasHostname hostname = true
    · exact ⟨w, by simp [upstreamMatcher.scan, hh], hh⟩
    · obtain ⟨v, hv1, hv2⟩ := ih (fun y hy => hpre y (List.mem_cons_of_mem _ hy))
      refine ⟨v, ?_, hv2⟩
      simpa [upstreamMatcher.scan, hh, hp] using hv1

/-- C3 (as amended). Let an upstream `u` that has the hostname `req.Host`
be visited after entries `pre` that are upstreams (no nil pointer) none of
which has the prefix `req.Prefix`, let every hostname-cache entry under
`req.Host` point to an upstream that has `req.Host`, and let the prefix
cache have no entry under `req.Prefix` unless the hostname cache has one
under a non-empty `req.Host`.  Then `Match` returns, with match type
Hostname and no error, an upstream that has `req.Host`, whatever `u`
itself and the entries visited after it hold. -/
theorem Match_hostname_precedence (r : upstreamMatcher) (req : Request)
    (pre post : List (UpstreamID × Option Upstream)) (id : UpstreamID) (u : Upstream)
    (hu : u.HasHostname req.Host = true)
    (hpre : ∀ x ∈ pre, ∃ w, x.2 = some w ∧ w.HasPrefix req.Prefix = false)
    (hcache : ∀ c, r.upstreamsByHostname.lookup req.Host = some c →
      ∃ w, c = some w ∧ w.HasHostname req.Host = true)
    (hpfx : (req.Host ≠ "" ∧ r.upstreamsByHostname.contains req.Host = true) ∨
      req.Prefix = "" ∨ r.upstreamsByPrefix.lookup req.Prefix = none) :
    ∃ w, (r.Match (pre ++ (id, some u) :: post) req).2
        = some ⟨some w, UpstreamMatchType.HostnameUpstreamMatch, none⟩ ∧
      w.HasHostname req.Host = true := by
  by_cases hhit : req.Host ≠ "" ∧ r.upstreamsByHostname.contains req.Host = true
  · obtain ⟨hne, hc⟩ := hhit
    cases hl : r.upstreamsByHostname.lookup req.Host with
    | none => simp [GoMap.contains, hl] at hc
    | some c =>
      obtain ⟨w, hcw, hw⟩ := hcache c hl
      subst hcw
      exact ⟨w, by rw [Match_hostname_hit r _ req (some w) hne hl], hw⟩
  · have hh : req.Host = "" ∨ r.upstreamsByHostname.lookup req.Host = none := by
      by_cases hne : req.Host = ""
      · exact Or.inl hne
      · right
        cases hl : r.upstreamsByHostname.lookup req.Host with
        | none => rfl
        | some c => exact absurd ⟨hne, by simp [GoMap.contains, hl]⟩ hhit
    have hp : req.Prefix = "" ∨ r.upstreamsByPrefix.lookup req.Prefix = none := by
      rcases hpfx with h | h
      · exact absurd h hhit
      · exact h
    rw [Match_eq_scan r _ req hh hp]
    exact scan_hostname_first r req.Host req.Prefix pre post id u hu hpre

/-- C3 (as amended), at the matcher that knows `upstreamWeb` and
`upstreamApi` with empty caches: `upstreamWeb` is visited first and wins
although `upstreamApi` has the prefix of the request. -/
theorem Match_hostname_precedence_witness :
    upstreamApi.HasPrefix requestBoth.Prefix = true ∧
    ∃ w, (matcherWebApi.Match ([] ++ ("u1", some upstreamWeb) :: [("u2", some upstreamApi)])
          requestBoth).2
        = some ⟨some w, UpstreamMatchType.HostnameUpstreamMatch, none⟩ ∧
      w.HasHostname requestBoth.Host = true :=
  ⟨by decide,
    Match_hostname_precedence matcherWebApi requestBoth [] [("u2", some upstreamApi)]
      "u1" upstreamWeb (by decide) (by decide) (by decide) (by decide)⟩

/-- C4 (counterexample). The hostname cache points to `upstreamTwin` under
`api.test`.  After `addUpstream` of `upstreamWeb`, which lists `api.test`,
`Match` of a request for `api.test` returns `upstreamTwin`, not
`upstreamWeb`, in either visiting order.  And after `addUpstream` of an
upstream with the nil ID on the empty matcher, `Match` of a request for its
host fails. -/
theorem Match_after_addUpstream_returns_cached :
    requestWeb.Host ∈ upstreamWeb.Hostnames ∧
    upstreamWeb.HasHostname requestWeb.Host = true ∧
    List.Perm [("u2", some upstreamTwin), ("u1", some upstreamWeb)]
      (matcherTwinCached.addUpstream (added upstreamWeb)).knownUpstreams.entries ∧
    ((matcherTwinCached.addUpstream (added upstreamWeb)).Match
        [("u2", some upstreamTwin), ("u1", some upstreamWeb)] requestWeb).2
      = some ⟨some upstreamTwin, UpstreamMatchType.HostnameUpstreamMatch, none⟩ ∧
    ((matcherTwinCached.addUpstream (added upstreamWeb)).Match
        [("u1", some upstreamWeb), ("u2", some upstreamTwin)] requestWeb).2
      = some ⟨some upstreamTwin, UpstreamMatchType.HostnameUpstreamMatch, none⟩ ∧
    upstreamTwin ≠ upstreamWeb ∧
    requestWeb.Host ∈ upstreamNoID.Hostnames ∧
    ((NewUpstreamMatcher.addUpstream (added upstreamNoID)).Match
        (NewUpstreamMatcher.addUpstream (added upstreamNoID)).knownUpstreams.entries requestWeb).2
      = some ⟨none, UpstreamMatchType.NilUpstreamMatch, some Error.UpstreamNotFoundError⟩ := by
  decide

/-- The scan returns the one upstream that has the hostname when every
other visited entry is an upstream that has neither the hostname nor the
prefix. -/
theorem scan_only_match (r : upstreamMatcher) (hostname pfx : String) (u : Upstream)
    (visit : List (UpstreamID × Option Upstream))
    (hu : u.HasHostname hostname = true)
    (hmem : ∃ x ∈ visit, x.2 = some u)
    (hall : ∀ x ∈ visit, x.2 = some u ∨
      ∃ w, x.2 = some w ∧ w.HasHostname hostname = false ∧ w.HasPrefix pfx = false) :
    (r.scan hostname pfx visit).2
      = some ⟨some u, UpstreamMatchType.HostnameUpstreamMatch, none⟩ := by
  induction visit with
  | nil =>
    obtain ⟨x, hx, _⟩ := hmem
    simp at hx
  | cons x rest ih =>
    obtain ⟨xid, p⟩ := x
    rcases hall (xid, p) (List.mem_cons_self _ _) with hp | ⟨w, hw, hwh, hwp⟩
    · simp only at hp
      subst hp
      simp [upstreamMatcher.scan, hu]
    · simp only at hw
      subst hw
      have hrest : ∃ y ∈ rest, y.2 = some u := by
        obtain ⟨y, hy, hyu⟩ := hmem
        rcases List.mem_cons.1 hy with h | h
        · subst h
          simp only [Option.some.injEq] at hyu
          subst hyu
          rw [hu] at hwh
          exact absurd hwh (by simp)
        · exact ⟨y, h, hyu⟩
      have := ih hrest (fun y hy => hall y (List.mem_cons_of_mem _ hy))
      simpa [upstreamMatcher.scan, hwh, hwp] using this

/-- C4 (as amended). Let the event carry a non-nil ID and an upstream `u`
that has the hostname `req.Host`, let neither cache hold an entry under
`req.Host` or `req.Prefix`, and let every entry known under another ID be
an upstream (no nil pointer) that has neither `req.Host` nor
`req.Prefix`.  After `addUpstream`, `Match` returns `u` as a hostname
match, with no error, in every visiting order. -/
theorem Match_after_addUpstream (r : upstreamMatcher) (event : UpstreamEvent) (req : Request)
    (visit : List (UpstreamID × Option Upstream)) (u : Upstream)
    (hid : event.UpstreamID ≠ NilUpstreamID)
    (hu : event.Upstream = some u)
    (hhost : u.HasHostname req.Host = true)
    (hvisit : visit.Perm (r.addUpstream event).knownUpstreams.entries)
    (hh : req.Host = "" ∨ r.upstreamsByHostname.lookup req.Host = none)
    (hp : req.Prefix = "" ∨ r.upstreamsByPrefix.lookup req.Prefix = none)
    (hothers : ∀ x ∈ r.knownUpstreams.entries, x.1 ≠ event.UpstreamID →
      ∃ w, x.2 = some w ∧ w.HasHostname req.Host = false ∧ w.HasPrefix req.Prefix = false) :
    ((r.addUpstream event).Match visit req).2
      = some ⟨some u, UpstreamMatchType.HostnameUpstreamMatch, none⟩ := by
  have hadd : r.addUpstream event =
      { r with knownUpstreams := r.knownUpstreams.store event.UpstreamID (some u) } := by
    simp [upstreamMatcher.addUpstream, hid, hu]
  rw [hadd] at hvisit ⊢
  rw [Match_eq_scan _ visit req (by exact hh) (by exact hp)]
  apply scan_only_match _ _ _ u visit hhost
  · exact ⟨(event.UpstreamID, some u),
      hvisit.mem_iff.2 ((GoMap.mem_entries_store _ _ _ _).2 (Or.inr rfl)), rfl⟩
  · intro x hx
    rcases (GoMap.mem_entries_store _ _ _ _).1 (hvisit.mem_iff.1 hx) with ⟨h1, h2⟩ | h
    · exact Or.inr (hothers x h1 h2)
    · left
      rw [h]

/-- C4 (as amended), at the matcher that knows `upstreamApi`: after
`addUpstream` of `upstreamWeb`, which lists `api.test`, a request for the
host `API.Test` returns it and caches it under the host as the request
spells it. -/
theorem Match_after_addUpstream_witness :
    upstreamWeb.HasHostname requestUpper.Host = true ∧
    ((NewUpstreamMatcher.addUpstream (added upstreamApi)).addUpstream (added upstreamWeb)).Match
        [("u1", some upstreamWeb), ("u2", some upstreamApi)] requestUpper
      = (⟨⟨[("u2", some upstreamApi), ("u1", some upstreamWeb)]⟩,
            ⟨[("API.Test", some upstreamWeb)]⟩, ⟨[]⟩⟩,
          some ⟨some upstreamWeb, UpstreamMatchType.HostnameUpstreamMatch, none⟩) :=
  ⟨by decide, Prod.ext (by decide)
    (Match_after_addUpstream (NewUpstreamMatcher.addUpstream (added upstreamApi))
      (added upstreamWeb) requestUpper [("u1", some upstreamWeb), ("u2", some upstreamApi)]
      upstreamWeb (by decide) rfl (by decide) (by decide) (by decide) (by decide) (by decide))⟩

/-- C5 (counterexample). The matcher knows `upstreamWeb` (`u1`) and
`upstreamTwin` (`u2`), which both list `api.test`, and its caches are
empty.  `Match` of the same request on the same state returns `upstreamWeb`
when the map is visited in one order and `upstreamTwin` when it is visited
in the other. -/
theorem Match_tie_follows_visiting_order :
    matcherTwins.upstreamsByHostname = GoMap.empty ∧
    matcherTwins.upstreamsByPrefix = GoMap.empty ∧
    List.Perm [("u1", some upstreamWeb), ("u2", some upstreamTwin)]
      matcherTwins.knownUpstreams.entries ∧
    List.Perm [("u2", some upstreamTwin), ("u1", some upstreamWeb)]
      matcherTwins.knownUpstreams.entries ∧
    (matcherTwins.Match [("u1", some upstreamWeb), ("u2", some upstreamTwin)] requestWeb).2
      = some ⟨some upstreamWeb, UpstreamMatchType.HostnameUpstreamMatch, none⟩ ∧
    (matcherTwins.Match [("u2", some upstreamTwin), ("u1", some upstreamWeb)] requestWeb).2
      = some ⟨some upstreamTwin, UpstreamMatchType.HostnameUpstreamMatch, none⟩ := by
  decide

/-- C5 (as amended). With empty caches and visited entries `ups` that are
upstreams (no nil pointer), `Match` returns the first upstream, in the
order in which `range` visits `knownUpstreams`, that has the host or the
prefix of the request: as a hostname match when it has the host, as a
prefix match otherwise; it fails with `UpstreamNotFoundError` when there is
none.  The result is a function of the visiting order and the request. -/
theorem Match_returns_first_visited (r : upstreamMatcher)
    (ups : List (UpstreamID × Upstream)) (req : Request)
    (hh : r.upstreamsByHostname = GoMap.empty) (hp : r.upstreamsByPrefix = GoMap.empty) :
    (r.Match (ups.map pointTo) req).2 =
      match ups.find? (fun e => e.2.HasHostname req.Host || e.2.HasPrefix req.Prefix) with
      | none =>
        some ⟨none, UpstreamMatchType.NilUpstreamMatch, some Error.UpstreamNotFoundError⟩
      | some e =>
        some ⟨some e.2,
          if e.2.HasHostname req.Host then UpstreamMatchType.HostnameUpstreamMatch
          else UpstreamMatchType.PrefixUpstreamMatch, none⟩ := by
  have h1 : r.upstreamsByHostname.lookup req.Host = none := by rw [hh]; rfl
  have h2 : r.upstreamsByPrefix.lookup req.Prefix = none := by rw [hp]; rfl
  rw [Match_eq_scan r _ req (Or.inr h1) (Or.inr h2), scan_result]

/-- C5 (as amended), at the matcher that knows the two upstreams listing
`api.test`, visited with `u2` first. -/
theorem Match_returns_first_visited_witness :
    List.Perm ([("u2", upstreamTwin), ("u1", upstreamWeb)].map pointTo)
      matcherTwins.knownUpstreams.entries ∧
    (matcherTwins.Match ([("u2", upstreamTwin), ("u1", upstreamWeb)].map pointTo) requestWeb).2 =
      match [("u2", upstreamTwin), ("u1", upstreamWeb)].find?
        (fun e => e.2.HasHostname requestWeb.Host || e.2.HasPrefix requestWeb.Prefix) with
      | none =>
        some ⟨none, UpstreamMatchType.NilUpstreamMatch, some Error.UpstreamNotFoundError⟩
      | some e =>
        some ⟨some e.2,
          if e.2.HasHostname requestWeb.Host then UpstreamMatchType.HostnameUpstreamMatch
          else UpstreamMatchType.PrefixUpstreamMatch, none⟩ :=
  ⟨by decide,
    Match_returns_first_visited matcherTwins [("u2", upstreamTwin), ("u1", upstreamWeb)]
      requestWeb (by decide) (by decide)⟩

/-- C6 (counterexample). The hostname cache points to `upstreamWeb` under
`api.test`, and `u1` has since been announced with another hostname.  No
known upstream has the host or the prefix of the request, no known entry is
nil, and `Match` returns `upstreamWeb` with no error. -/
theorem Match_succeeds_from_cache_alone :
    matcherStale.knownUpstreams.entries = [("u1", some upstreamMoved)] ∧
    upstreamMoved.HasHostname requestWeb.Host = false ∧
    upstreamMoved.HasPrefix requestWeb.Prefix = false ∧
    requestWeb.Host ∉ upstreamMoved.Hostnames ∧ requestWeb.Prefix ∉ upstreamMoved.Prefixes ∧
    (matcherStale.Match matcherStale.knownUpstreams.entries requestWeb).2
      = some ⟨some upstreamWeb, UpstreamMatchType.HostnameUpstreamMatch, none⟩ := by
  decide

/-- C6 (as amended). On a matcher none of whose known entries is a nil
pointer, `Match` returns, and it fails with `UpstreamNotFoundError` iff the
hostname cache has no entry under a non-empty `req.Host`, the prefix cache
has no entry under a non-empty `req.Prefix`, and no known upstream has the
hostname `req.Host` or the prefix `req.Prefix`; a failing `Match` returns
the nil upstream and `NilUpstreamMatch`, and it fails with no other
error. -/
theorem Match_not_found_iff (r : upstreamMatcher) (visit : List (UpstreamID × Option Upstream))
    (req : Request) (hvisit : visit.Perm r.knownUpstreams.entries)
    (hnil : ∀ e ∈ r.knownUpstreams.entries, e.2 ≠ none) :
    ∃ res, (r.Match visit req).2 = some res ∧
      (res.err = some Error.UpstreamNotFoundError ↔
        (req.Host = "" ∨ r.upstreamsByHostname.lookup req.Host = none) ∧
        (req.Prefix = "" ∨ r.upstreamsByPrefix.lookup req.Prefix = none) ∧
        ∀ e ∈ r.knownUpstreams.entries, ∀ u, e.2 = some u →
          u.HasHostname req.Host = false ∧ u.HasPrefix req.Prefix = false) ∧
      (res.err ≠ none →
        res = ⟨none, UpstreamMatchType.NilUpstreamMatch, some Error.UpstreamNotFoundError⟩) := by
  by_cases hh : req.Host = "" ∨ r.upstreamsByHostname.lookup req.Host = none
  · by_cases hp : req.Prefix = "" ∨ r.upstreamsByPrefix.lookup req.Prefix = none
    · obtain ⟨ups, hups⟩ := exists_pointTo visit
        (fun e he => hnil e (hvisit.mem_iff.1 he))
      rw [Match_eq_scan r visit req hh hp, hups, scan_result]
      cases hf : ups.find? (fun e => e.2.HasHostname req.Host || e.2.HasPrefix req.Prefix) with
      | none =>
        refine ⟨_, rfl, ⟨fun _ => ⟨hh, hp, ?_⟩, fun _ => rfl⟩, fun _ => rfl⟩
        intro e he u heu
        have hmem : e ∈ ups.map pointTo := by rw [← hups]; exact hvisit.mem_iff.2 he
        obtain ⟨x, hx, hxe⟩ := List.mem_map.1 hmem
        have hxu : x.2 = u := by
          rw [← hxe] at heu
          simpa [pointTo] using heu
        have := List.find?_eq_none.1 hf x hx
        rw [hxu] at this
        simpa using this
      | some e =>
        refine ⟨_, rfl, ⟨fun h => by simp at h, ?_⟩, fun h => by simp at h⟩
        rintro ⟨_, _, hall⟩
        have hmem : pointTo e ∈ r.knownUpstreams.entries := by
          apply hvisit.mem_iff.1
          rw [hups]
          exact List.mem_map.2 ⟨e, List.mem_of_find?_eq_some hf, rfl⟩
        have hpred := List.find?_some hf
        have := hall (pointTo e) hmem e.2 rfl
        simp [this.1, this.2] at hpred
    · have hne : req.Prefix ≠ "" := fun h => hp (Or.inl h)
      obtain ⟨c, hl⟩ : ∃ c, r.upstreamsByPrefix.lookup req.Prefix = some c := by
        cases hl : r.upstreamsByPrefix.lookup req.Prefix with
        | none => exact absurd (Or.inr hl) hp
        | some c => exact ⟨c, rfl⟩
      rw [Match_prefix_hit r visit req c hh hne hl]
      exact ⟨_, rfl, ⟨fun h => by simp at h, fun h => absurd h.2.1 hp⟩, fun h => by simp at h⟩
  · have hne : req.Host ≠ "" := fun h => hh (Or.inl h)
    obtain ⟨c, hl⟩ : ∃ c, r.upstreamsByHostname.lookup req.Host = some c := by
      cases hl : r.upstreamsByHostname.lookup req.Host with
      | none => exact absurd (Or.inr hl) hh
      | some c => exact ⟨c, rfl⟩
    rw [Match_hostname_hit r visit req c hne hl]
    exact ⟨_, rfl, ⟨fun h => by simp at h, fun h => absurd h.1 hh⟩, fun h => by simp at h⟩

/-- C6 (as amended), at the matcher that knows `upstreamWeb` and
`upstreamApi` with empty caches: `Match` returns on a request for an
unlisted host and prefix, and the result is the failure. -/
theorem Match_not_found_iff_witness :
    List.Perm [("u2", some upstreamApi), ("u1", some upstreamWeb)]
      matcherWebApi.knownUpstreams.entries ∧
    (matcherWebApi.Match [("u2", some upstreamApi), ("u1", some upstreamWeb)]
        ⟨"other.test", "/x", "/x/y"⟩).2
      = some ⟨none, UpstreamMatchType.NilUpstreamMatch, some Error.UpstreamNotFoundError⟩ ∧
    ∃ res, (matcherWebApi.Match [("u2", some upstreamApi), ("u1", some upstreamWeb)]
        ⟨"other.test", "/x", "/x/y"⟩).2 = some res ∧
      (res.err ≠ none →
        res = ⟨none, UpstreamMatchType.NilUpstreamMatch, some Error.UpstreamNotFoundError⟩) :=
  ⟨by decide, by decide,
    (Match_not_found_iff matcherWebApi [("u2", some upstreamApi), ("u1", some upstreamWeb)]
      ⟨"other.test", "/x", "/x/y"⟩ (by decide) (by decide)).imp (fun _ h => ⟨h.1, h.2.2⟩)⟩

end Gatekeeper

/-! ## The listener table of the broadcaster -/

namespace GoMap

variable {κ α : Type} [DecidableEq κ]

theorem delete_delete (m : GoMap κ α) (k : κ) : (m.delete k).delete k = m.delete k := by
  simp [delete, List.filter_filter]

theorem lookup_empty (k : κ) : (GoMap.empty : GoMap κ α).lookup k = none := rfl

theorem lookup_eq_none_of_not_contains (m : GoMap κ α) (k : κ) (h : m.contains k = false) :
    m.lookup k = none := by
  unfold contains at h
  cases hl : m.lookup k with
  | none => rfl
  | some v => rw [hl] at h; simp at h

theorem lookup_isSome_of_contains (m : GoMap κ α) (k : κ) (h : m.contains k = true) :
    ∃ v, m.lookup k = some v := by
  unfold contains at h
  cases hl : m.lookup k with
  | none => rw [hl] at h; simp at h
  | some v => exact ⟨v, rfl⟩

end GoMap

namespace Core

/-- The table after one turn of the loop of `AddListener`. -/
theorem register_lookup (listenerID : ListenerID) (ch : EventCh)
    (m : GoMap EventKind (GoMap ListenerID EventCh)) (event k : EventKind) :
    (broadcaster.register listenerID ch m event).lookup k =
      if event = k then some (((m.lookup event).getD GoMap.empty).store listenerID ch)
      else m.lookup k := by
  unfold broadcaster.register
  by_cases hc : m.contains event = true
  · simp only [hc, if_true, GoMap.lookup_store]
  · have hc' : m.contains event = false := by simpa using hc
    have hn : m.lookup event = none := GoMap.lookup_eq_none_of_not_contains m event hc'
    simp only [hc', Bool.false_eq_true, if_false, GoMap.lookup_store, if_true, hn,
      Option.getD_some, Option.getD_none]
    by_cases hk : event = k
    · simp [hk]
    · simp [hk]

/-- The registrations of other listener IDs after one turn of the loop of
`AddListener`. -/
theorem register_registration (listenerID : ListenerID) (ch : EventCh)
    (m : GoMap EventKind (GoMap ListenerID EventCh)) (event k : EventKind)
    (id : ListenerID) (hid : id ≠ listenerID) :
    broadcaster.registration ⟨broadcaster.register listenerID ch m event⟩ k id =
      broadcaster.registration ⟨m⟩ k id := by
  unfold broadcaster.registration
  simp only [register_lookup]
  by_cases hk : event = k
  · subst hk
    have hne : ¬ listenerID = id := fun h => hid h.symm
    simp only [if_true, Option.bind_some]
    cases m.lookup event with
    | none => simp [GoMap.lookup_store, hne, GoMap.lookup_empty]
    | some ls => simp [GoMap.lookup_store, hne]
  · simp [hk]

/-- A kind that is not in the list keeps its inner map through
`AddListener`. -/
theorem foldl_register_lookup_of_not_mem (listenerID : ListenerID) (ch : EventCh)
    (events : List EventKind) (m : GoMap EventKind (GoMap ListenerID EventCh))
    (k : EventKind) (hk : k ∉ events) :
    (events.foldl (broadcaster.register listenerID ch) m).lookup k = m.lookup k := by
  induction events generalizing m with
  | nil => rfl
  | cons e rest ih =>
    rw [List.foldl_cons, ih _ (fun h => hk (List.mem_cons_of_mem _ h)), register_lookup]
    have hne : ¬ e = k := fun h => hk (h ▸ List.mem_cons_self _ _)
    simp [hne]

/-- A kind of the list ends with an inner map whose last write was the
store of the channel under the ID. -/
theorem foldl_register_lookup_of_mem (listenerID : ListenerID) (ch : EventCh)
    (events : List EventKind) (m : GoMap EventKind (GoMap ListenerID EventCh))
    (k : EventKind) (hk : k ∈ events) :
    ∃ inner : GoMap ListenerID EventCh,
      (events.foldl (broadcaster.register listenerID ch) m).lookup k =
        some (inner.store listenerID ch) := by
  induction events generalizing m with
  | nil => simp at hk
  | cons e rest ih =>
    rw [List.foldl_cons]
    by_cases hrest : k ∈ rest
    · exact ih _ hrest
    · have hek : e = k := by
        rcases List.mem_cons.1 hk with h | h
        · exact h.symm
        · exact absurd h hrest
      rw [foldl_register_lookup_of_not_mem _ _ _ _ _ hrest, register_lookup, if_pos hek]
      exact ⟨_, rfl⟩

/-- `AddListener` leaves the registrations of every other listener ID as
they were. -/
theorem AddListener_registration_of_ne (b : broadcaster) (listenerID : ListenerID)
    (ch : EventCh) (events : List EventKind) (k : EventKind) (id : ListenerID)
    (hid : id ≠ listenerID) :
    (b.AddListener listenerID ch events).1.registration k id = b.registration k id := by
  obtain ⟨m⟩ := b
  simp only [broadcaster.AddListener]
  induction events generalizing m with
  | nil => rfl
  | cons e rest ih =>
    rw [List.foldl_cons, ih, register_registration _ _ _ _ _ _ hid]

/-- The sends of `Publish` on the prompt schedule, counted per channel:
one for each visited listener on that channel. -/
theorem Publish_promptSchedule_count (b : broadcaster) (visit : List (ListenerID × EventCh))
    (event : UpstreamEvent) (ch : EventCh)
    (hsome : (b.eventListeners.lookup event.Type).isSome = true) :
    (b.Publish visit promptSchedule event).2.count (ch, event) =
      visit.countP (fun l => decide (l.2 = ch)) := by
  rw [Publish_promptSchedule, if_pos hsome]
  induction visit with
  | nil => rfl
  | cons l rest ih =>
    by_cases hl : l.2 = ch
    · simp [List.count_cons, List.countP_cons, hl, ih]
    · have hne : ¬ (ch, event) = (l.2, event) := fun h => hl (Prod.ext_iff.1 h).1.symm
      simp only [List.map_cons, List.countP_cons, hl, decide_False, Bool.false_eq_true,
        if_false, Nat.add_zero, ← ih]
      rw [List.count_cons_of_ne hne]

/-- C11 (counterexample). A new broadcaster serves
`AddListener(ch1, [UpstreamAddedEvent])` twice; the calls are given the IDs
`a` and `b`.  The table then holds two registrations of channel 1 for the
kind, and `Publish` of an event of that kind sends it twice on channel 1,
on the prompt schedule as on the late one. -/
theorem AddListener_twice_registers_twice :
    broadcasterTwice.eventListeners.lookup EventKind.UpstreamAddedEvent
      = some ⟨[("a", 1), ("b", 1)]⟩ ∧
    (broadcasterTwice.Publish [("a", 1), ("b", 1)] promptSchedule eventAdded).2
      = [(1, eventAdded), (1, eventAdded)] ∧
    (broadcasterTwice.Publish [("a", 1), ("b", 1)] (lateSchedule 2) eventAdded).2
      = [(1, eventAdded), (1, eventAdded)] := by
  decide

/-- C11 (as amended). `AddListener` is idempotent on pairs of listener ID
and kind: after `AddListener` with the ID `listenerID`, the inner map of
every kind of `events`, repeated or not, holds exactly one registration
under that ID, the one of `ch`; and if no other listener ID has `ch`
registered for the kind, `Publish` of an event of that kind sends it on
`ch` exactly once (each goroutine sending on the channel of its own
iteration). -/
theorem AddListener_registers_once (b : broadcaster) (listenerID : ListenerID)
    (ch : EventCh) (events : List EventKind) (event : UpstreamEvent)
    (listeners : GoMap ListenerID EventCh) (visit : List (ListenerID × EventCh))
    (hkind : event.Type ∈ events)
    (hls : (b.AddListener listenerID ch events).1.eventListeners.lookup event.Type
      = some listeners)
    (hvisit : visit.Perm listeners.entries)
    (hother : ∀ l ∈ listeners.entries, l.1 ≠ listenerID → l.2 ≠ ch) :
    listeners.entries.filter (fun l => decide (l.1 = listenerID)) = [(listenerID, ch)] ∧
    ((b.AddListener listenerID ch events).1.Publish visit promptSchedule event).2.count
      (ch, event) = 1 := by
  obtain ⟨inner, hinner⟩ :=
    foldl_register_lookup_of_mem listenerID ch events b.eventListeners event.Type hkind
  have heq : listeners = inner.store listenerID ch := by
    have h1 : (b.AddListener listenerID ch events).1.eventListeners.lookup event.Type
        = some (inner.store listenerID ch) := hinner
    rw [hls] at h1
    exact Option.some.inj h1
  have hentries : listeners.entries = (inner.delete listenerID).entries ++ [(listenerID, ch)] := by
    rw [heq]; rfl
  have hdel : ∀ l ∈ (inner.delete listenerID).entries, l.1 ≠ listenerID := fun l hl =>
    ((GoMap.mem_entries_delete inner listenerID l).1 hl).2
  refine ⟨?_, ?_⟩
  · rw [hentries, List.filter_append]
    have h0 : List.filter (fun l => decide (l.1 = listenerID)) (inner.delete listenerID).entries
        = [] := by
      rw [List.filter_eq_nil_iff]
      intro l hl
      simpa using hdel l hl
    rw [h0]
    simp
  · rw [Publish_promptSchedule_count _ _ _ _ (by rw [hls]; rfl), hvisit.countP_eq, hentries,
      List.countP_append]
    have h0 : List.countP (fun l => decide (l.2 = ch)) (inner.delete listenerID).entries = 0 := by
      rw [List.countP_eq_zero]
      intro l hl
      have hmem : l ∈ listeners.entries := by
        rw [hentries]; exact List.mem_append_left _ hl
      simpa using hother l hmem (hdel l hl)
    rw [h0]
    simp

/-- C11 (as amended), at a new broadcaster and an `AddListener` call whose
kind list repeats `UpstreamAddedEvent`. -/
theorem AddListener_registers_once_witness :
    (NewBroadcaster.AddListener "a" 1
        [EventKind.UpstreamAddedEvent, EventKind.UpstreamAddedEvent]).1.eventListeners
      = ⟨[(EventKind.UpstreamAddedEvent, ⟨[("a", 1)]⟩)]⟩ ∧
    ((NewBroadcaster.AddListener "a" 1
        [EventKind.UpstreamAddedEvent, EventKind.UpstreamAddedEvent]).1.Publish
      [("a", 1)] promptSchedule eventAdded).2.count (1, eventAdded) = 1 :=
  ⟨by decide,
    (AddListener_registers_once NewBroadcaster "a" 1
      [EventKind.UpstreamAddedEvent, EventKind.UpstreamAddedEvent] eventAdded ⟨[("a", 1)]⟩
      [("a", 1)] (by decide) (by decide) (by decide) (by decide)).2⟩

/-- The table after one turn of the loop of `RemoveListener`. -/
theorem unregister_lookup (id : ListenerID) (m : GoMap EventKind (GoMap ListenerID EventCh))
    (entry : EventKind × GoMap ListenerID EventCh) (k : EventKind) :
    (broadcaster.unregister id m entry).lookup k =
      if entry.1 = k then (m.lookup k).map (fun ls => ls.delete id) else m.lookup k := by
  unfold broadcaster.unregister
  cases hl : m.lookup entry.1 with
  | none =>
    by_cases hk : entry.1 = k
    · subst hk; simp [hl]
    · simp [hk]
  | some ls =>
    simp only [GoMap.lookup_store]
    by_cases hk : entry.1 = k
    · subst hk; simp [hl]
    · simp [hk]

/-- The table after the loop of `RemoveListener` over the visited
entries. -/
theorem foldl_unregister_lookup (id : ListenerID)
    (visit : List (EventKind × GoMap ListenerID EventCh))
    (m : GoMap EventKind (GoMap ListenerID EventCh)) (k : EventKind) :
    (visit.foldl (broadcaster.unregister id) m).lookup k =
      if k ∈ visit.map Prod.fst then (m.lookup k).map (fun ls => ls.delete id)
      else m.lookup k := by
  induction visit generalizing m with
  | nil => simp
  | cons entry rest ih =>
    rw [List.foldl_cons, ih, unregister_lookup]
    by_cases hk : entry.1 = k
    · by_cases hr : k ∈ rest.map Prod.fst
      · have hm : k ∈ (entry :: rest).map Prod.fst := by
          rw [List.map_cons]; exact List.mem_cons_of_mem _ hr
        rw [if_pos hr, if_pos hk, if_pos hm]
        cases m.lookup k with
        | none => rfl
        | some ls => simp [GoMap.delete_delete]
      · have hm : k ∈ (entry :: rest).map Prod.fst := by
          rw [List.map_cons, hk]; exact List.mem_cons_self _ _
        rw [if_neg hr, if_pos hk, if_pos hm]
    · have hiff : k ∈ (entry :: rest).map Prod.fst ↔ k ∈ rest.map Prod.fst := by
        rw [List.map_cons, List.mem_cons]
        constructor
        · rintro (h | h)
          · exact absurd h.symm hk
          · exact h
        · exact Or.inr
      rw [if_neg hk]
      by_cases hr : k ∈ rest.map Prod.fst
      · rw [if_pos hr, if_pos (hiff.2 hr)]
      · rw [if_neg hr, if_neg (fun h => hr (hiff.1 h))]

/-- After `RemoveListener` every inner map is the inner map before without
the ID. -/
theorem RemoveListener_lookup (b : broadcaster)
    (visit : List (EventKind × GoMap ListenerID EventCh)) (id : ListenerID)
    (hvisit : visit.Perm b.eventListeners.entries) (k : EventKind) :
    (b.RemoveListener visit id).eventListeners.lookup k =
      (b.eventListeners.lookup k).map (fun ls => ls.delete id) := by
  simp only [broadcaster.RemoveListener]
  rw [foldl_unregister_lookup]
  by_cases hk : k ∈ visit.map Prod.fst
  · rw [if_pos hk]
  · rw [if_neg hk]
    have hkeys : k ∉ b.eventListeners.keys := by
      intro h
      exact hk ((hvisit.map Prod.fst).mem_iff.2 h)
    rw [(GoMap.lookup_eq_none_iff _ _).2 hkeys]
    rfl

/-- C12. After `RemoveListener(id)` no event kind maps `id` to a channel,
the registration of every other listener ID is unchanged for every kind,
and every send of a later `Publish`, of any kind and on any schedule, is a
send on the channel of a visited listener whose ID is not `id`. -/
theorem RemoveListener_unregisters (b : broadcaster)
    (visit : List (EventKind × GoMap ListenerID EventCh)) (id : ListenerID)
    (hvisit : visit.Perm b.eventListeners.entries) :
    (∀ kind, (b.RemoveListener visit id).registration kind id = none) ∧
    (∀ kind id', id' ≠ id →
      (b.RemoveListener visit id).registration kind id' = b.registration kind id') ∧
    (∀ (event : UpstreamEvent) (listeners : GoMap ListenerID EventCh)
      (visit' : List (ListenerID × EventCh)) (sched : Nat → Nat),
      (b.RemoveListener visit id).eventListeners.lookup event.Type = some listeners →
      visit'.Perm listeners.entries →
      ∀ send ∈ ((b.RemoveListener visit id).Publish visit' sched event).2,
        ∃ l ∈ visit', l.1 ≠ id ∧ send = (l.2, event)) := by
  refine ⟨?_, ?_, ?_⟩
  · intro kind
    simp only [broadcaster.registration, RemoveListener_lookup b visit id hvisit]
    cases b.eventListeners.lookup kind with
    | none => rfl
    | some ls => simp [GoMap.lookup_delete]
  · intro kind id' hne
    simp only [broadcaster.registration, RemoveListener_lookup b visit id hvisit]
    cases b.eventListeners.lookup kind with
    | none => rfl
    | some ls =>
      have hne' : ¬ id = id' := fun h => hne h.symm
      simp [GoMap.lookup_delete, hne']
  · intro event listeners visit' sched hls hperm send hsend
    have hls' := hls
    rw [RemoveListener_lookup b visit id hvisit] at hls'
    obtain ⟨orig, _, horig⟩ := Option.map_eq_some'.1 hls'
    simp only [broadcaster.Publish, hls, List.mem_filterMap] at hsend
    obtain ⟨i, _, hi⟩ := hsend
    obtain ⟨l, hl, hsend'⟩ := Option.map_eq_some'.1 hi
    have hmem : l ∈ visit' := List.get?_mem hl
    have hmem' : l ∈ (orig.delete id).entries := by
      rw [horig]; exact hperm.mem_iff.1 hmem
    exact ⟨l, hmem, ((GoMap.mem_entries_delete orig id l).1 hmem').2, hsend'.symm⟩

/-- C12, at the broadcaster with the registrations `a` and `b`: after
`RemoveListener("a")` only `b` is registered. -/
theorem RemoveListener_unregisters_witness :
    (broadcasterTwice.RemoveListener broadcasterTwice.eventListeners.entries "a").eventListeners
      = ⟨[(EventKind.UpstreamAddedEvent, ⟨[("b", 1)]⟩)]⟩ ∧
    (broadcasterTwice.RemoveListener broadcasterTwice.eventListeners.entries
      "a").registration EventKind.UpstreamAddedEvent "a" = none :=
  ⟨by decide,
    (RemoveListener_unregisters broadcasterTwice broadcasterTwice.eventListeners.entries "a"
      (List.Perm.refl _)).1 EventKind.UpstreamAddedEvent⟩

end Core

/-! ## The simple load balancer -/

namespace GoMap

variable {κ α : Type} [DecidableEq κ]

/-- In a map whose keys are distinct, the entries are the pairs of a key
and the value read under it. -/
theorem mem_entries_iff_lookup (m : GoMap κ α) (hnd : m.keys.Nodup) (k : κ) (v : α) :
    (k, v) ∈ m.entries ↔ m.lookup k = some v := by
  obtain ⟨l⟩ := m
  simp only [keys, lookup] at hnd ⊢
  induction l with
  | nil => simp
  | cons e rest ih =>
    obtain ⟨k', v'⟩ := e
    rw [List.map_cons, List.nodup_cons] at hnd
    by_cases hk : k' = k
    · subst hk
      simp only [List.mem_cons, Prod.mk.injEq, true_and, List.find?_cons, decide_True,
        Option.map_some', Option.some.injEq]
      constructor
      · rintro (h | h)
        · exact h.symm
        · exact absurd (List.mem_map.2 ⟨(k', v), h, rfl⟩) hnd.1
      · intro h
        exact Or.inl h.symm
    · have := ih hnd.2
      simp only [List.mem_cons, Prod.mk.injEq, List.find?_cons, hk, decide_False]
      rw [← this]
      constructor
      · rintro (h | h)
        · exact absurd h.1.symm hk
        · exact h
      · exact Or.inr

end GoMap

namespace SimpleLoadBalancer

open Gatekeeper

/-- The pool after `AddBackend`: the backend is appended to the list of the
upstream, whatever the list holds. -/
theorem AddBackend_lookup (l : LoadBalancer) (upstream k : UpstreamID) (backend : Backend) :
    (l.AddBackend upstream backend).1.upstreamBackends.lookup k =
      if upstream = k then some ((l.upstreamBackends.lookup upstream).getD [] ++ [backend])
      else l.upstreamBackends.lookup k := by
  unfold LoadBalancer.AddBackend
  by_cases hc : l.upstreamBackends.contains upstream = true
  · simp only [hc, if_true, GoMap.lookup_store]
  · have hc' : l.upstreamBackends.contains upstream = false := by simpa using hc
    have hn := GoMap.lookup_eq_none_of_not_contains _ _ hc'
    simp only [hc', Bool.false_eq_true, if_false, GoMap.lookup_store, if_true, hn,
      Option.getD_some, Option.getD_none]
    by_cases hk : upstream = k
    · simp [hk]
    · simp [hk]

/-- C13. With `rand.Intn(n)` in `[0, n)` for positive `n`: `GetBackend`
fails with `UPSTREAM_NOT_FOUND` iff the upstream has no pool entry, fails
with `NO_BACKENDS_FOUND` iff the upstream has an entry whose list is
empty, and otherwise the chosen index is within bounds and the call
returns, with no error, a backend that is an element of the list. -/
theorem GetBackend_spec (l : LoadBalancer) (intn : Nat → Nat) (upstream : UpstreamID)
    (hintn : ∀ n, 0 < n → intn n < n) :
    (l.GetBackend intn upstream = some (NilBackend, some (Error.errorf "UPSTREAM_NOT_FOUND")) ↔
      l.upstreamBackends.lookup upstream = none) ∧
    (l.GetBackend intn upstream = some (NilBackend, some (Error.errorf "NO_BACKENDS_FOUND")) ↔
      l.upstreamBackends.lookup upstream = some []) ∧
    (∀ backends, l.upstreamBackends.lookup upstream = some backends → backends ≠ [] →
      intn backends.length < backends.length ∧
      ∃ backend ∈ backends, l.GetBackend intn upstream = some (backend, none)) := by
  unfold LoadBalancer.GetBackend
  cases hl : l.upstreamBackends.lookup upstream with
  | none => simp
  | some backends =>
    by_cases hlen : backends.length = 0
    · have hnil : backends = [] := List.length_eq_zero.1 hlen
      subst hnil
      simp
    · have hne : backends ≠ [] := fun h => hlen (by rw [h]; rfl)
      have hlt : intn backends.length < backends.length :=
        hintn _ (Nat.pos_of_ne_zero hlen)
      have hget : backends.get? (intn backends.length)
          = some (backends.get ⟨intn backends.length, hlt⟩) := List.get?_eq_get hlt
      simp only [hlen, if_false, hget]
      refine ⟨by simp, by simp [hne], ?_⟩
      intro bs hbs _
      cases hbs
      exact ⟨hlt, _, List.get_mem _ _ _, rfl⟩

/-- C13, at a pool in which `u1` has two backends, `u2` an empty list and
`u3` no entry, with `rand.Intn` returning `n - 1`. -/
theorem GetBackend_spec_witness :
    (∀ n, 0 < n → (fun n => n - 1) n < n) ∧
    poolMixed.GetBackend (fun n => n - 1) "u1" = some (backendTwo, none) ∧
    poolMixed.GetBackend (fun n => n - 1) "u2"
      = some (NilBackend, some (Error.errorf "NO_BACKENDS_FOUND")) ∧
    poolMixed.GetBackend (fun n => n - 1) "u3"
      = some (NilBackend, some (Error.errorf "UPSTREAM_NOT_FOUND")) :=
  ⟨fun n hn => Nat.sub_lt hn Nat.one_pos,
    by decide,
    (GetBackend_spec poolMixed (fun n => n - 1) "u2"
      (fun n hn => Nat.sub_lt hn Nat.one_pos)).2.1.2 (by decide),
    by decide⟩

/-- C14 (defect). On a new pool, `AddBackend("u1", b1)` applied once leaves
the list `[b1]` and applied twice leaves `[b1, b1]`: the second call is not
a no-op and the list holds two backends with the same `BackendID`. -/
theorem AddBackend_twice_duplicates :
    poolOnce.upstreamBackends.lookup "u1" = some [backendOne] ∧
    poolTwice.upstreamBackends.lookup "u1" = some [backendOne, backendOne] ∧
    poolTwice ≠ poolOnce := by
  decide

/-- The inner loop of `RemoveBackend` removes the first occurrence. -/
theorem removeFirst_eq (deleted : Backend) (backends : List Backend) :
    removeFirst deleted backends =
      if deleted ∈ backends then some (backends.erase deleted) else none := by
  induction backends with
  | nil => simp [removeFirst]
  | cons b rest ih =>
    by_cases hb : b = deleted
    · subst hb
      simp [removeFirst]
    · have hne : ¬ deleted = b := fun h => hb h.symm
      have hbeq : ¬ (b == deleted) = true := by simpa using hb
      have herase : (b :: rest).erase deleted = b :: rest.erase deleted :=
        List.erase_cons_tail hbeq
      simp only [removeFirst, ne_eq, hb, not_false_eq_true, if_true, ih, List.mem_cons, hne,
        false_or, herase]
      by_cases hmem : deleted ∈ rest
      · simp [hmem]
      · simp [hmem]

/-- The flag `found` after the outer loop of `RemoveBackend`. -/
theorem foldl_removeFrom_found (deleted : Backend) (visit : List (UpstreamID × List Backend))
    (acc : GoMap UpstreamID (List Backend) × Bool) :
    (visit.foldl (removeFrom deleted) acc).2 = true ↔
      acc.2 = true ∨ ∃ e ∈ visit, deleted ∈ e.2 := by
  induction visit generalizing acc with
  | nil => simp
  | cons e rest ih =>
    rw [List.foldl_cons, ih]
    unfold removeFrom
    rw [removeFirst_eq]
    by_cases hmem : deleted ∈ e.2
    · simp [hmem]
    · simp [hmem]

/-- The map after the outer loop of `RemoveBackend`, when the visited keys
are distinct. -/
theorem foldl_removeFrom_lookup (deleted : Backend) (visit : List (UpstreamID × List Backend))
    (acc : GoMap UpstreamID (List Backend) × Bool) (hnd : (visit.map Prod.fst).Nodup)
    (k : UpstreamID) :
    (visit.foldl (removeFrom deleted) acc).1.lookup k =
      match visit.find? (fun e => decide (e.1 = k)) with
      | some e => if deleted ∈ e.2 then some (e.2.erase deleted) else acc.1.lookup k
      | none => acc.1.lookup k := by
  induction visit generalizing acc with
  | nil => rfl
  | cons e rest ih =>
    rw [List.map_cons, List.nodup_cons] at hnd
    rw [List.foldl_cons, ih _ hnd.2]
    have hstep : (removeFrom deleted acc e).1.lookup k =
        if e.1 = k then (if deleted ∈ e.2 then some (e.2.erase deleted) else acc.1.lookup k)
        else acc.1.lookup k := by
      unfold removeFrom
      rw [removeFirst_eq]
      by_cases hmem : deleted ∈ e.2
      · simp only [hmem, if_true, GoMap.lookup_store]
      · simp [hmem]
    by_cases hk : e.1 = k
    · have hnone : rest.find? (fun e => decide (e.1 = k)) = none := by
        rw [List.find?_eq_none]
        intro x hx hxk
        have hxk' : x.1 = k := by simpa using hxk
        exact hnd.1 (List.mem_map.2 ⟨x, hx, hxk'.trans hk.symm⟩)
      rw [hnone, hstep]
      simp [List.find?_cons, hk]
    · rw [hstep, if_neg hk]
      simp [List.find?_cons, hk]

/-- What `RemoveBackend` does on a pool with distinct keys: the first
occurrence of the backend is erased from every list, and the call fails
iff no list holds the backend. -/
theorem RemoveBackend_erases_first (l : LoadBalancer) (visit : List (UpstreamID × List Backend))
    (deleted : Backend) (hnd : l.upstreamBackends.keys.Nodup)
    (hvisit : visit.Perm l.upstreamBackends.entries) :
    (∀ k, (l.RemoveBackend visit deleted).1.upstreamBackends.lookup k =
      (l.upstreamBackends.lookup k).map (fun backends => backends.erase deleted)) ∧
    ((l.RemoveBackend visit deleted).2 = none ↔
      ∃ e ∈ l.upstreamBackends.entries, deleted ∈ e.2) := by
  have hndv : (visit.map Prod.fst).Nodup := (hvisit.map Prod.fst).nodup_iff.2 hnd
  have hmap : ∀ k, (visit.foldl (removeFrom deleted) (l.upstreamBackends, false)).1.lookup k =
      (l.upstreamBackends.lookup k).map (fun backends => backends.erase deleted) := by
    intro k
    rw [foldl_removeFrom_lookup deleted visit _ hndv k]
    cases hf : visit.find? (fun e => decide (e.1 = k)) with
    | none =>
      have hk : k ∉ l.upstreamBackends.keys := by
        intro h
        obtain ⟨x, hx, hxk⟩ := List.mem_map.1 h
        have := List.find?_eq_none.1 hf x (hvisit.mem_iff.2 hx)
        simp [hxk] at this
      rw [(GoMap.lookup_eq_none_iff _ _).2 hk]
      rfl
    | some e =>
      have hek : e.1 = k := by simpa using List.find?_some hf
      have hmem : (k, e.2) ∈ l.upstreamBackends.entries := by
        have := hvisit.mem_iff.1 (List.mem_of_find?_eq_some hf)
        rw [← hek]; exact this
      have hlook := (GoMap.mem_entries_iff_lookup _ hnd k e.2).1 hmem
      simp only [hlook, Option.map_some']
      by_cases hd : deleted ∈ e.2
      · simp [hd]
      · simp [hd, List.erase_of_not_mem hd]
  have hfound := foldl_removeFrom_found deleted visit (l.upstreamBackends, false)
  refine ⟨?_, ?_⟩
  · intro k
    unfold LoadBalancer.RemoveBackend
    simp only
    split
    · exact hmap k
    · exact hmap k
  · unfold LoadBalancer.RemoveBackend
    simp only
    split
    · rename_i h
      simp only [true_iff]
      rcases hfound.1 h with h' | ⟨e, he, hd⟩
      · simp at h'
      · exact ⟨e, hvisit.mem_iff.1 he, hd⟩
    · rename_i h
      simp only [false_iff, reduceCtorEq]
      rintro ⟨e, he, hd⟩
      exact h (hfound.2 (Or.inr ⟨e, hvisit.mem_iff.2 he, hd⟩))

/-- C15 (defect). The pool is reached by `AddBackend("u1", b1)` twice, so
the list of `u1` is `[b1, b1]`.  `RemoveBackend(b1)` returns no error and
leaves the list `[b1]`: the backend still occurs in it. -/
theorem RemoveBackend_leaves_duplicate :
    poolTwice = ((NewLoadBalancer.AddBackend "u1" backendOne).1.AddBackend "u1" backendOne).1 ∧
    (poolTwice.RemoveBackend poolTwice.upstreamBackends.entries backendOne).2 = none ∧
    (poolTwice.RemoveBackend poolTwice.upstreamBackends.entries
      backendOne).1.upstreamBackends.lookup "u1" = some [backendOne] := by
  decide

end SimpleLoadBalancer

/-! ## The request handler -/

namespace Core

/-- The method `writeError` invokes no pipeline stage. -/
theorem stages_writeError (s : server) (err : Option Error) (request : Request)
    (response : Response) : stages (s.writeError err request response) = [] := by
  simp [stages, server.writeError, server.eventMetric, server.writeResponse, Action.stage]

/-- The method `writeError` hands the response it was given to
`ModifyErrorResponse`. -/
theorem errorResponses_writeError (s : server) (err : Option Error) (request : Request)
    (response : Response) : errorResponses (s.writeError err request response) = [response] := by
  simp [errorResponses, server.writeError, server.eventMetric, server.writeResponse]

/-- The method `writeError` writes one response. -/
theorem written_writeError (s : server) (err : Option Error) (request : Request)
    (response : Response) : (written (s.writeError err request response)).length = 1 := by
  simp [written, server.writeError, server.eventMetric, server.writeResponse]

/-- The method `writeError` emits no request metric. -/
theorem emitted_writeError (s : server) (err : Option Error) (request : Request)
    (response : Response) : emitted (s.writeError err request response) = [] := by
  simp [emitted, server.writeError, server.eventMetric, server.writeResponse]

/-- C16 (counterexample). A draining server handles a request: the error
response it builds has status 500, not 503. -/
theorem httpHandler_draining_status_500 :
    serverDraining.stopAccepting = true ∧
    (errorResponses (serverDraining.httpHandler requestV1)).map (fun r => r.StatusCode)
      = [500] := by
  decide

/-- C16 (as amended). Whenever the server is draining, for every incoming
request the handler builds one error response, with status 500 and the
text of `ServerShuttingDownError`, and calls none of the router, the load
balancer, `ModifyRequest` and the proxier. -/
theorem httpHandler_draining (s : server) (req : Request) (h : s.stopAccepting = true) :
    errorResponses (s.httpHandler req)
      = [NewErrorResponse 500 (some Error.ServerShuttingDownError)] ∧
    (NewErrorResponse 500 (some Error.ServerShuttingDownError)).StatusCode = 500 ∧
    stages (s.httpHandler req) = [] := by
  have hh : (s.handle req { Request := req }).1 =
      s.writeError (some Error.ServerShuttingDownError) req
        (NewErrorResponse 500 (some Error.ServerShuttingDownError)) := by
    simp [server.handle, h]
  refine ⟨?_, rfl, ?_⟩
  · simp only [server.httpHandler, hh, errorResponses, List.filterMap_append]
    simp [server.writeError, server.eventMetric, server.writeResponse]
  · simp only [server.httpHandler, hh, stages, List.filterMap_append]
    simp [server.writeError, server.eventMetric, server.writeResponse, Action.stage]

/-- C16 (as amended), at a draining server. -/
theorem httpHandler_draining_witness :
    serverDraining.stopAccepting = true ∧
    errorResponses (serverDraining.httpHandler requestV1)
      = [NewErrorResponse 500 (some Error.ServerShuttingDownError)] ∧
    (NewErrorResponse 500 (some Error.ServerShuttingDownError)).StatusCode = 500 ∧
    stages (serverDraining.httpHandler requestV1) = [] :=
  ⟨rfl, httpHandler_draining serverDraining requestV1 rfl⟩

/-- The body of the handler when the router fails. -/
theorem handle_route_error (s : server) (req req1 : Request) (metric : RequestMetric)
    (upstream : Gatekeeper.Upstream) (err : Error)
    (hs : s.stopAccepting = false) (hr : s.RouteRequest req = (upstream, req1, some err)) :
    s.handle req metric =
      ([Action.RouteRequest req] ++ s.writeError (some err) req1 (NewErrorResponse 400 (some err)),
        { metric with Response := some (NewErrorResponse 400 (some err)), Error := some err }) := by
  simp [server.handle, hs, hr]

/-- The body of the handler when the load balancer fails. -/
theorem handle_balance_error (s : server) (req req1 : Request) (metric : RequestMetric)
    (upstream : Gatekeeper.Upstream) (backend : Option Gatekeeper.Backend) (err : Error)
    (hs : s.stopAccepting = false) (hr : s.RouteRequest req = (upstream, req1, none))
    (hb : s.GetBackend upstream.ID = (backend, some err)) :
    s.handle req metric =
      ([Action.RouteRequest req, Action.GetBackend upstream.ID] ++
          s.writeError (some err) req1 (NewErrorResponse 500 (some err)),
        { metric with Upstream := some upstream,
                      Response := some (NewErrorResponse 500 (some err)), Error := some err }) := by
  simp [server.handle, hs, hr, hb]

/-- The body of the handler when `ModifyRequest` fails. -/
theorem handle_modify_error (s : server) (req req1 req2 : Request) (metric : RequestMetric)
    (upstream : Gatekeeper.Upstream) (backend : Option Gatekeeper.Backend) (err : Error)
    (hs : s.stopAccepting = false) (hr : s.RouteRequest req = (upstream, req1, none))
    (hb : s.GetBackend upstream.ID = (backend, none))
    (hm : s.ModifyRequest req1 = (req2, some err)) :
    s.handle req metric =
      ([Action.RouteRequest req, Action.GetBackend upstream.ID, Action.ModifyRequest req1] ++
          s.writeError (some err) req2 (NewErrorResponse 500 (some err)),
        { metric with Upstream := some upstream, Backend := backend, Error := some err,
                      Response := some (NewErrorResponse 500 (some err)) }) := by
  simp [server.handle, hs, hr, hb, hm]

/-- The body of the handler when the modifier set an error on the
request. -/
theorem handle_request_error (s : server) (req req1 req2 : Request) (metric : RequestMetric)
    (upstream : Gatekeeper.Upstream) (backend : Option Gatekeeper.Backend) (reqErr : Error)
    (hs : s.stopAccepting = false) (hr : s.RouteRequest req = (upstream, req1, none))
    (hb : s.GetBackend upstream.ID = (backend, none))
    (hm : s.ModifyRequest req1 = (req2, none)) (he : req2.Error = some reqErr) :
    s.handle req metric =
      ([Action.RouteRequest req, Action.GetBackend upstream.ID, Action.ModifyRequest req1] ++
          s.writeError none req2 (NewErrorResponse 500 none),
        { metric with Upstream := some upstream, Backend := backend, Error := some reqErr,
                      Response := some (NewErrorResponse 500 none) }) := by
  simp [server.handle, hs, hr, hb, hm, he]

/-- The body of the handler when the modifier attached an early
response. -/
theorem handle_early (s : server) (req req1 req2 : Request) (metric : RequestMetric)
    (upstream : Gatekeeper.Upstream) (backend : Option Gatekeeper.Backend) (early : Response)
    (hs : s.stopAccepting = false) (hr : s.RouteRequest req = (upstream, req1, none))
    (hb : s.GetBackend upstream.ID = (backend, none))
    (hm : s.ModifyRequest req1 = (req2, none)) (he : req2.Error = none)
    (hresp : req2.Response = some early) :
    s.handle req metric =
      ([Action.RouteRequest req, Action.GetBackend upstream.ID, Action.ModifyRequest req1] ++
          server.writeResponse early,
        { metric with Upstream := some upstream, Backend := backend,
                      Response := some early }) := by
  simp [server.handle, hs, hr, hb, hm, he, hresp]

/-- The body of the handler when the proxier fails. -/
theorem handle_proxy_error (s : server) (req req1 req2 : Request) (metric metric3 : RequestMetric)
    (upstream : Gatekeeper.Upstream) (backend : Option Gatekeeper.Backend) (err : Error)
    (hs : s.stopAccepting = false) (hr : s.RouteRequest req = (upstream, req1, none))
    (hb : s.GetBackend upstream.ID = (backend, none))
    (hm : s.ModifyRequest req1 = (req2, none)) (he : req2.Error = none)
    (hresp : req2.Response = none)
    (hp : s.Proxy req2 upstream backend
      { metric with Upstream := some upstream, Backend := backend } = (metric3, some err)) :
    s.handle req metric =
      ([Action.RouteRequest req, Action.GetBackend upstream.ID, Action.ModifyRequest req1] ++
          [Action.Proxy req2 upstream backend] ++
          s.writeError (some err) req2 (NewErrorResponse 500 (some err)),
        { metric3 with Response := some (NewErrorResponse 500 (some err)),
                       Error := some err }) := by
  simp [server.handle, hs, hr, hb, hm, he, hresp, hp]

/-- The body of the handler when every stage succeeds. -/
theorem handle_success (s : server) (req req1 req2 : Request) (metric metric3 : RequestMetric)
    (upstream : Gatekeeper.Upstream) (backend : Option Gatekeeper.Backend)
    (hs : s.stopAccepting = false) (hr : s.RouteRequest req = (upstream, req1, none))
    (hb : s.GetBackend upstream.ID = (backend, none))
    (hm : s.ModifyRequest req1 = (req2, none)) (he : req2.Error = none)
    (hresp : req2.Response = none)
    (hp : s.Proxy req2 upstream backend
      { metric with Upstream := some upstream, Backend := backend } = (metric3, none)) :
    s.handle req metric =
      ([Action.RouteRequest req, Action.GetBackend upstream.ID, Action.ModifyRequest req1] ++
          [Action.Proxy req2 upstream backend] ++
          server.eventMetric EventKind.RequestSuccessEvent,
        metric3) := by
  simp [server.handle, hs, hr, hb, hm, he, hresp, hp]

/-- C17 (counterexample). The router finds an upstream and the load
balancer fails with `NO_BACKENDS_FOUND`: the error response the handler
builds and hands to `ModifyErrorResponse` has status 500, not 502. -/
theorem httpHandler_no_backend_status_500 :
    serverNoBackend.stopAccepting = false ∧
    (serverNoBackend.RouteRequest requestV1).2.2 = none ∧
    (serverNoBackend.GetBackend Gatekeeper.upstreamWeb.ID).2
      = some (Error.other "NO_BACKENDS_FOUND") ∧
    (errorResponses (serverNoBackend.httpHandler requestV1)).map (fun r => r.StatusCode)
      = [500] := by
  decide

/-- C17 (as amended). For every request that is routed to an upstream for
which `GetBackend` fails, the handler builds one error response and hands
it to `ModifyErrorResponse`: the response of status 500 with the text of
the load balancer's error. -/
theorem httpHandler_no_backend (s : server) (req req1 : Request)
    (upstream : Gatekeeper.Upstream) (backend : Option Gatekeeper.Backend) (err : Error)
    (hs : s.stopAccepting = false) (hr : s.RouteRequest req = (upstream, req1, none))
    (hb : s.GetBackend upstream.ID = (backend, some err)) :
    errorResponses (s.httpHandler req) = [NewErrorResponse 500 (some err)] ∧
    (NewErrorResponse 500 (some err)).StatusCode = 500 := by
  refine ⟨?_, rfl⟩
  simp only [server.httpHandler, handle_balance_error s req req1 _ upstream backend err hs hr hb,
    errorResponses, List.filterMap_append]
  simp [server.writeError, server.eventMetric, server.writeResponse]

/-- C17 (as amended), at a server whose load balancer has no backend. -/
theorem httpHandler_no_backend_witness :
    errorResponses (serverNoBackend.httpHandler requestV1)
      = [NewErrorResponse 500 (some (Error.other "NO_BACKENDS_FOUND"))] ∧
    (NewErrorResponse 500 (some (Error.other "NO_BACKENDS_FOUND"))).StatusCode = 500 :=
  httpHandler_no_backend serverNoBackend requestV1 requestV1 Gatekeeper.upstreamWeb none
    (Error.other "NO_BACKENDS_FOUND") rfl rfl rfl

/-- C18. On a server that is not draining: when `RouteRequest` fails the
handler builds the error response of status 400 and invokes no stage after
the router; when `GetBackend` fails it builds the error response of status
500 and invokes no stage after the load balancer; when `ModifyRequest`
fails it builds the error response of status 500 and does not invoke the
proxier; when `Proxy` fails it builds the error response of status 500.
In each case one error response is built and each stage up to the failing
one is invoked once. -/
theorem httpHandler_first_failure_ends (s : server) (req : Request)
    (hs : s.stopAccepting = false) :
    (∀ upstream req1 err, s.RouteRequest req = (upstream, req1, some err) →
      errorResponses (s.httpHandler req) = [NewErrorResponse 400 (some err)] ∧
      (NewErrorResponse 400 (some err)).StatusCode = 400 ∧
      stages (s.httpHandler req) = [Stage.route]) ∧
    (∀ upstream req1 backend err, s.RouteRequest req = (upstream, req1, none) →
      s.GetBackend upstream.ID = (backend, some err) →
      errorResponses (s.httpHandler req) = [NewErrorResponse 500 (some err)] ∧
      (NewErrorResponse 500 (some err)).StatusCode = 500 ∧
      stages (s.httpHandler req) = [Stage.route, Stage.balance]) ∧
    (∀ upstream req1 backend req2 err, s.RouteRequest req = (upstream, req1, none) →
      s.GetBackend upstream.ID = (backend, none) →
      s.ModifyRequest req1 = (req2, some err) →
      errorResponses (s.httpHandler req) = [NewErrorResponse 500 (some err)] ∧
      (NewErrorResponse 500 (some err)).StatusCode = 500 ∧
      stages (s.httpHandler req) = [Stage.route, Stage.balance, Stage.modify]) ∧
    (∀ upstream req1 backend req2 metric3 err, s.RouteRequest req = (upstream, req1, none) →
      s.GetBackend upstream.ID = (backend, none) →
      s.ModifyRequest req1 = (req2, none) → req2.Error = none → req2.Response = none →
      s.Proxy req2 upstream backend
        { Request := req, Upstream := some upstream, Backend := backend } = (metric3, some err) →
      errorResponses (s.httpHandler req) = [NewErrorResponse 500 (some err)] ∧
      (NewErrorResponse 500 (some err)).StatusCode = 500 ∧
      stages (s.httpHandler req) = [Stage.route, Stage.balance, Stage.modify, Stage.proxy]) := by
  refine ⟨?_, ?_, ?_, ?_⟩
  · intro upstream req1 err hr
    simp only [server.httpHandler, handle_route_error s req req1 _ upstream err hs hr,
      errorResponses, stages, List.filterMap_append]
    simp [server.writeError, server.eventMetric, server.writeResponse, Action.stage,
      NewErrorResponse]
  · intro upstream req1 backend err hr hb
    simp only [server.httpHandler, handle_balance_error s req req1 _ upstream backend err hs hr hb,
      errorResponses, stages, List.filterMap_append]
    simp [server.writeError, server.eventMetric, server.writeResponse, Action.stage,
      NewErrorResponse]
  · intro upstream req1 backend req2 err hr hb hm
    simp only [server.httpHandler,
      handle_modify_error s req req1 req2 _ upstream backend err hs hr hb hm,
      errorResponses, stages, List.filterMap_append]
    simp [server.writeError, server.eventMetric, server.writeResponse, Action.stage,
      NewErrorResponse]
  · intro upstream req1 backend req2 metric3 err hr hb hm he hresp hp
    simp only [server.httpHandler,
      handle_proxy_error s req req1 req2 { Request := req } metric3 upstream backend err
        hs hr hb hm he hresp hp,
      errorResponses, stages, List.filterMap_append]
    simp [server.writeError, server.eventMetric, server.writeResponse, Action.stage,
      NewErrorResponse]

/-- C18, at four servers: one whose router fails, one whose load balancer
fails, one whose modifier fails and one whose proxier fails. -/
theorem httpHandler_first_failure_ends_witness :
    stages (serverNoRoute.httpHandler requestV1) = [Stage.route] ∧
    stages (serverNoBackend.httpHandler requestV1) = [Stage.route, Stage.balance] ∧
    stages (serverNoModify.httpHandler requestV1)
      = [Stage.route, Stage.balance, Stage.modify] ∧
    errorResponses (serverNoProxy.httpHandler requestV1)
      = [NewErrorResponse 500 (some (Error.other "dial failed"))] :=
  ⟨((httpHandler_first_failure_ends serverNoRoute requestV1 rfl).1
      Gatekeeper.Upstream.zero requestV1 Error.RouteNotFoundError rfl).2.2,
    ((httpHandler_first_failure_ends serverNoBackend requestV1 rfl).2.1
      Gatekeeper.upstreamWeb requestV1 none (Error.other "NO_BACKENDS_FOUND") rfl rfl).2.2,
    ((httpHandler_first_failure_ends serverNoModify requestV1 rfl).2.2.1
      Gatekeeper.upstreamWeb requestV1 (some Gatekeeper.backendOne) requestV1
      (Error.other "modifier failed") rfl rfl rfl).2.2,
    ((httpHandler_first_failure_ends serverNoProxy requestV1 rfl).2.2.2
      Gatekeeper.upstreamWeb requestV1 (some Gatekeeper.backendOne) requestV1
      { Request := requestV1, Upstream := some Gatekeeper.upstreamWeb,
        Backend := some Gatekeeper.backendOne }
      (Error.other "dial failed") rfl rfl rfl rfl rfl rfl).1⟩

/-- C19. On every path through the handler exactly one metric is handed to
`metricWriter.RequestMetric`, that call is the last step, and before it
either the handler has written one response or the proxier has run with
success (and written the response of the backend). -/
theorem httpHandler_emits_metric_once (s : server) (req : Request) :
    emitted (s.httpHandler req) = [(s.handle req { Request := req }).2] ∧
    (s.httpHandler req).getLast? = some (Action.RequestMetric (s.handle req { Request := req }).2) ∧
    ((written (s.httpHandler req)).length = 1 ∨
      ((written (s.httpHandler req)).length = 0 ∧
        stages (s.httpHandler req) = [Stage.route, Stage.balance, Stage.modify, Stage.proxy] ∧
        Action.EventMetric EventKind.RequestSuccessEvent ∈ s.httpHandler req)) := by
  have hbody : emitted (s.handle req { Request := req }).1 = [] ∧
      ((written (s.handle req { Request := req }).1).length = 1 ∨
        ((written (s.handle req { Request := req }).1).length = 0 ∧
          stages (s.handle req { Request := req }).1
            = [Stage.route, Stage.balance, Stage.modify, Stage.proxy] ∧
          Action.EventMetric EventKind.RequestSuccessEvent ∈
            (s.handle req { Request := req }).1)) := by
    cases hs : s.stopAccepting with
    | true =>
      have hh : (s.handle req { Request := req }).1 =
          s.writeError (some Error.ServerShuttingDownError) req
            (NewErrorResponse 500 (some Error.ServerShuttingDownError)) := by
        simp [server.handle, hs]
      rw [hh]
      exact ⟨emitted_writeError _ _ _ _, Or.inl (written_writeError _ _ _ _)⟩
    | false =>
      rcases hr : s.RouteRequest req with ⟨upstream, req1, rerr⟩
      cases rerr with
      | some err =>
        rw [handle_route_error s req req1 _ upstream err hs hr]
        simp [emitted, written, server.writeError, server.eventMetric, server.writeResponse]
      | none =>
        rcases hb : s.GetBackend upstream.ID with ⟨backend, berr⟩
        cases berr with
        | some err =>
          rw [handle_balance_error s req req1 _ upstream backend err hs hr hb]
          simp [emitted, written, server.writeError, server.eventMetric, server.writeResponse]
        | none =>
          rcases hm : s.ModifyRequest req1 with ⟨req2, merr⟩
          cases merr with
          | some err =>
            rw [handle_modify_error s req req1 req2 _ upstream backend err hs hr hb hm]
            simp [emitted, written, server.writeError, server.eventMetric, server.writeResponse]
          | none =>
            cases he : req2.Error with
            | some reqErr =>
              rw [handle_request_error s req req1 req2 _ upstream backend reqErr hs hr hb hm he]
              simp [emitted, written, server.writeError, server.eventMetric,
                server.writeResponse]
            | none =>
              cases hresp : req2.Response with
              | some early =>
                rw [handle_early s req req1 req2 _ upstream backend early hs hr hb hm he hresp]
                simp [emitted, written, server.writeResponse]
              | none =>
                rcases hp : s.Proxy req2 upstream backend
                  { Request := req, Upstream := some upstream, Backend := backend }
                  with ⟨metric3, perr⟩
                cases perr with
                | some err =>
                  rw [handle_proxy_error s req req1 req2 { Request := req } metric3 upstream
                    backend err hs hr hb hm he hresp hp]
                  simp [emitted, written, server.writeError, server.eventMetric,
                    server.writeResponse]
                | none =>
                  rw [handle_success s req req1 req2 { Request := req } metric3 upstream backend
                    hs hr hb hm he hresp hp]
                  simp [emitted, written, stages, Action.stage, server.eventMetric]
  obtain ⟨hemit, hwritten⟩ := hbody
  refine ⟨?_, ?_, ?_⟩
  · simp only [server.httpHandler, emitted, List.filterMap_append] at hemit ⊢
    rw [hemit]
    simp [server.eventMetric]
  · simp [server.httpHandler]
  · have hw : written (s.httpHandler req) = written (s.handle req { Request := req }).1 := by
      simp [server.httpHandler, written, List.filterMap_append, server.eventMetric]
    have hst : stages (s.httpHandler req) = stages (s.handle req { Request := req }).1 := by
      simp [server.httpHandler, stages, List.filterMap_append, server.eventMetric, Action.stage]
    rw [hw, hst]
    rcases hwritten with h | ⟨h1, h2, h3⟩
    · exact Or.inl h
    · refine Or.inr ⟨h1, h2, ?_⟩
      simp only [server.httpHandler, List.mem_append]
      exact Or.inl (Or.inr h3)

/-- C20 (counterexample). The modifier returns, without error, a request
carrying an early response: the handler has invoked `GetBackend` before
`ModifyRequest`. -/
theorem httpHandler_early_response_after_GetBackend :
    (serverEarly.ModifyRequest requestV1).2 = none ∧
    (serverEarly.ModifyRequest requestV1).1.Response = some responseMoved ∧
    Action.GetBackend "u1" ∈ serverEarly.httpHandler requestV1 ∧
    stages (serverEarly.httpHandler requestV1) = [Stage.route, Stage.balance, Stage.modify] := by
  decide

/-- C20 (as amended). When `ModifyRequest` returns, without error, a request
that carries an early response and no error, the handler writes exactly
that response and no other, records it as `metric.Response`, builds no
error response and does not invoke the proxier; `GetBackend` has been
invoked once, with success, before `ModifyRequest`. -/
theorem httpHandler_early_response (s : server) (req req1 req2 : Request)
    (upstream : Gatekeeper.Upstream) (backend : Option Gatekeeper.Backend) (early : Response)
    (hs : s.stopAccepting = false) (hr : s.RouteRequest req = (upstream, req1, none))
    (hb : s.GetBackend upstream.ID = (backend, none))
    (hm : s.ModifyRequest req1 = (req2, none)) (he : req2.Error = none)
    (hresp : req2.Response = some early) :
    s.httpHandler req =
      [Action.EventMetric EventKind.RequestAcceptedEvent, Action.RouteRequest req,
        Action.GetBackend upstream.ID, Action.ModifyRequest req1, Action.writeResponse early,
        Action.RequestMetric
          { Request := req, Upstream := some upstream, Backend := backend,
            Response := some early }] ∧
    written (s.httpHandler req) = [early] ∧
    errorResponses (s.httpHandler req) = [] ∧
    stages (s.httpHandler req) = [Stage.route, Stage.balance, Stage.modify] := by
  have htrace : s.httpHandler req =
      [Action.EventMetric EventKind.RequestAcceptedEvent, Action.RouteRequest req,
        Action.GetBackend upstream.ID, Action.ModifyRequest req1, Action.writeResponse early,
        Action.RequestMetric
          { Request := req, Upstream := some upstream, Backend := backend,
            Response := some early }] := by
    simp [server.httpHandler, handle_early s req req1 req2 _ upstream backend early
      hs hr hb hm he hresp, server.eventMetric, server.writeResponse]
  rw [htrace]
  exact ⟨rfl, rfl, rfl, rfl⟩

/-- C20 (as amended), at a server whose modifier attaches an early
response. -/
theorem httpHandler_early_response_witness :
    written (serverEarly.httpHandler requestV1) = [responseMoved] ∧
    errorResponses (serverEarly.httpHandler requestV1) = [] ∧
    stages (serverEarly.httpHandler requestV1) = [Stage.route, Stage.balance, Stage.modify] :=
  (httpHandler_early_response serverEarly requestV1 requestV1
    { requestV1 with Response := some responseMoved } Gatekeeper.upstreamWeb
    (some Gatekeeper.backendOne) responseMoved rfl rfl rfl rfl rfl rfl).2

end Core

/-! ## The fallback of `writeError` and the stop of the server -/

namespace Core

/-- C21 (counterexample). The pipeline surfaced the error "dial failed" and
`ModifyErrorResponse` fails: `writeError` writes a response of status 500
whose body is the text of `ModifierPluginError`, not the text of the
original error. -/
theorem writeError_body_is_not_original_error :
    (serverBadModifier.ModifyErrorResponse (some (Error.other "dial failed")) requestV1
      (NewErrorResponse 500 (some (Error.other "dial failed")))).2
      = some (Error.other "plugin crashed") ∧
    written (serverBadModifier.writeError (some (Error.other "dial failed")) requestV1
      (NewErrorResponse 500 (some (Error.other "dial failed"))))
      = [{ StatusCode := 500, Body := Error.ModifierPluginError.text }] ∧
    Error.ModifierPluginError.text ≠ (Error.other "dial failed").text := by
  decide

/-- C21 (as amended). For every error surfaced by the pipeline and every
request and error response: if `ModifyErrorResponse` fails, `writeError`
writes one response, the response the modifier returned with its status
code set to 500 and its body set to the text of `ModifierPluginError`. -/
theorem writeError_modifier_failure (s : server) (err : Option Error) (request : Request)
    (response modified : Response) (modErr : Error)
    (h : s.ModifyErrorResponse err request response = (modified, some modErr)) :
    written (s.writeError err request response)
      = [{ modified with Body := Error.ModifierPluginError.text, StatusCode := 500 }] ∧
    ∀ w ∈ written (s.writeError err request response),
      w.StatusCode = 500 ∧ w.Body = Error.ModifierPluginError.text := by
  have hw : written (s.writeError err request response)
      = [{ modified with Body := Error.ModifierPluginError.text, StatusCode := 500 }] := by
    simp [written, server.writeError, server.eventMetric, server.writeResponse, h]
  rw [hw]
  refine ⟨rfl, ?_⟩
  intro w hmem
  rw [List.mem_singleton] at hmem
  subst hmem
  exact ⟨rfl, rfl⟩

/-- C21 (as amended), at a server whose `ModifyErrorResponse` fails. -/
theorem writeError_modifier_failure_witness :
    written (serverBadModifier.writeError (some (Error.other "dial failed")) requestV1
      (NewErrorResponse 500 (some (Error.other "dial failed"))))
      = [{ StatusCode := 500, Body := "ModifierPluginError" }] :=
  (writeError_modifier_failure serverBadModifier (some (Error.other "dial failed")) requestV1
    (NewErrorResponse 500 (some (Error.other "dial failed")))
    (NewErrorResponse 500 (some (Error.other "dial failed")))
    (Error.other "plugin crashed") rfl).1

/-- The method `Stop` leaves the server as it was: `stopAccepting` keeps its
value. -/
theorem Stop_server (s : server) (duration : Nat) (errCh : Option Error) :
    (s.Stop duration errCh).1.stopAccepting = s.stopAccepting := rfl

/-- C22 (defect). A started server that is not draining serves `Stop`: one
`ServerStoppedEvent` is emitted before the HTTP server is stopped, but
`stopAccepting` is still false afterwards, and a request handled after the
stop runs the whole pipeline instead of the shutting-down branch. -/
theorem Stop_leaves_stopAccepting_false :
    serverOk.stopAccepting = false ∧
    (serverOk.Stop 5 none).2.1
      = [StopAction.EventMetric EventKind.ServerStoppedEvent, StopAction.httpServerStop 5,
          StopAction.stopChSend, StopAction.errChReceive] ∧
    (serverOk.Stop 5 none).1.stopAccepting = false ∧
    stages ((serverOk.Stop 5 none).1.httpHandler requestV1)
      = [Stage.route, Stage.balance, Stage.modify, Stage.proxy] ∧
    errorResponses ((serverOk.Stop 5 none).1.httpHandler requestV1) = [] := by
  decide

end Core

/-! ## The servers of the application -/

namespace Gatekeeper

/-- The method `Validate` writes neither port. -/
theorem Validate_ports (o : Options) (lookPath : String → Except Error String) :
    (o.Validate lookPath).1.HTTPPublicPort = o.HTTPPublicPort ∧
    (o.Validate lookPath).1.HTTPInternalPort = o.HTTPInternalPort := by
  unfold Options.Validate
  simp only
  repeat' split
  all_goals exact ⟨rfl, rfl⟩

/-- What `New` builds from options that pass `Validate`: one server, for
`HTTPPublicPort`, when that port is not zero, and the failure "at least one
server must be specified" when it is zero, whatever `HTTPInternalPort`
is. -/
theorem New_servers (lookPath : String → Except Error String) (options : Options)
    (hvalid : (options.Validate lookPath).2 = none) :
    New lookPath options =
      if options.HTTPPublicPort ≠ 0 then
        (some { servers := [{ port := options.HTTPPublicPort, protocol := Protocol.HTTPPublic }] },
          none)
      else (none, some (Error.errorf "at least one server must be specified")) := by
  have hport := (Validate_ports options lookPath).1
  unfold New
  rcases hv : options.Validate lookPath with ⟨options1, verr⟩
  rw [hv] at hvalid hport
  simp only at hvalid hport
  subst hvalid
  simp only [hport]
  by_cases hp : options.HTTPPublicPort = 0
  · simp [hp]
  · simp [hp]

/-- C23 (defect). Options that pass `Validate` with `HTTPPublicPort` zero
and `HTTPInternalPort` 8001: `New` fails with "at least one server must be
specified" although a port is not zero.  With both ports set, `New` builds
the server for `HTTPPublicPort` only. -/
theorem New_ignores_HTTPInternalPort :
    (optionsInternal.Validate lookPathOk).2 = none ∧
    optionsInternal.HTTPInternalPort = 8001 ∧
    New lookPathOk optionsInternal
      = (none, some (Error.errorf "at least one server must be specified")) ∧
    (optionsBoth.Validate lookPathOk).2 = none ∧
    New lookPathOk optionsBoth
      = (some { servers := [{ port := 8000, protocol := Protocol.HTTPPublic }] }, none) := by
  decide

end Gatekeeper

/-! ## The local router -/

namespace Core

/-- The scan of the local router when no visited upstream lists the host or
the prefix. -/
theorem localRouter_scan_none (l : localRouter) (req : Request)
    (visit : List (Gatekeeper.UpstreamID × Gatekeeper.Upstream))
    (hall : ∀ x ∈ visit, req.Host ∉ x.2.Hostnames ∧ req.Prefix ∉ x.2.Prefixes) :
    l.scan req visit = (l, ⟨none, req, some Error.RouteNotFoundError⟩) := by
  induction visit with
  | nil => rfl
  | cons x rest ih =>
    obtain ⟨id, u⟩ := x
    have hx := hall (id, u) (List.mem_cons_self _ _)
    simp only [localRouter.scan, InStrList, hx.1, hx.2, decide_False, Bool.false_eq_true,
      if_false]
    exact ih (fun y hy => hall y (List.mem_cons_of_mem _ hy))

/-- The scan of the local router skips the upstreams that list neither the
host nor the prefix. -/
theorem localRouter_scan_skip (l : localRouter) (req : Request)
    (pre rest : List (Gatekeeper.UpstreamID × Gatekeeper.Upstream))
    (hpre : ∀ x ∈ pre, req.Host ∉ x.2.Hostnames ∧ req.Prefix ∉ x.2.Prefixes) :
    l.scan req (pre ++ rest) = l.scan req rest := by
  induction pre with
  | nil => rfl
  | cons x more ih =>
    obtain ⟨id, u⟩ := x
    have hx := hpre (id, u) (List.mem_cons_self _ _)
    simp only [List.cons_append, localRouter.scan, InStrList, hx.1, hx.2, decide_False,
      Bool.false_eq_true, if_false]
    exact ih (fun y hy => hpre y (List.mem_cons_of_mem _ hy))

/-- C24. What `RouteRequest` returns, path by path.  On a hit of the prefix
cache it returns the cached upstream and the request with its path set to
its prefixless path.  Otherwise, on a hit of the hostname cache it returns
the cached upstream and the request unchanged.  Otherwise the scan returns
the first visited upstream that lists the host or the prefix: with the
request unchanged when it lists the host, and with the path set to the
prefixless path when it lists only the prefix.  When no upstream lists
either, it fails with `RouteNotFoundError` and the request is unchanged. -/
theorem RouteRequest_path (l : localRouter)
    (visit : List (Gatekeeper.UpstreamID × Gatekeeper.Upstream)) (req : Request) :
    (∀ u, l.prefixCache.lookup req.Prefix = some u →
      (l.RouteRequest visit req).2 = ⟨some u, { req with Path := req.PrefixlessPath }, none⟩) ∧
    (l.prefixCache.lookup req.Prefix = none →
      ∀ u, l.hostnameCache.lookup req.Host = some u →
        (l.RouteRequest visit req).2 = ⟨some u, req, none⟩) ∧
    (l.prefixCache.lookup req.Prefix = none → l.hostnameCache.lookup req.Host = none →
      ∀ pre e post, visit = pre ++ e :: post →
        (∀ x ∈ pre, req.Host ∉ x.2.Hostnames ∧ req.Prefix ∉ x.2.Prefixes) →
        (req.Host ∈ e.2.Hostnames →
          (l.RouteRequest visit req).2 = ⟨some e.2, req, none⟩) ∧
        (req.Host ∉ e.2.Hostnames → req.Prefix ∈ e.2.Prefixes →
          (l.RouteRequest visit req).2
            = ⟨some e.2, { req with Path := req.PrefixlessPath }, none⟩)) ∧
    (l.prefixCache.lookup req.Prefix = none → l.hostnameCache.lookup req.Host = none →
      (∀ x ∈ visit, req.Host ∉ x.2.Hostnames ∧ req.Prefix ∉ x.2.Prefixes) →
      (l.RouteRequest visit req).2 = ⟨none, req, some Error.RouteNotFoundError⟩) := by
  refine ⟨?_, ?_, ?_, ?_⟩
  · intro u hu
    simp [localRouter.RouteRequest, hu]
  · intro hp u hu
    simp [localRouter.RouteRequest, hp, hu]
  · intro hp hh pre e post hvisit hpre
    have hscan : l.RouteRequest visit req = l.scan req (e :: post) := by
      simp only [localRouter.RouteRequest, hp, hh, hvisit]
      exact localRouter_scan_skip l req pre (e :: post) hpre
    obtain ⟨id, u⟩ := e
    rw [hscan]
    constructor
    · intro hhost
      simp [localRouter.scan, InStrList, hhost]
    · intro hhost hpfx
      simp [localRouter.scan, InStrList, hhost, hpfx]
  · intro hp hh hall
    simp only [localRouter.RouteRequest, hp, hh]
    rw [localRouter_scan_none l req visit hall]

/-- C24, at the router that knows `upstreamWeb` by hostname and
`upstreamApi` by prefix: a request matched by prefix comes back with its
prefixless path, a request matched by hostname comes back unchanged. -/
theorem RouteRequest_path_witness :
    (routerTwo.RouteRequest [("u1", Gatekeeper.upstreamWeb), ("u2", Gatekeeper.upstreamApi)]
        requestOther).2
      = ⟨some Gatekeeper.upstreamApi, { requestOther with Path := "/v1" }, none⟩ ∧
    (routerTwo.RouteRequest [("u1", Gatekeeper.upstreamWeb), ("u2", Gatekeeper.upstreamApi)]
        requestV1).2
      = ⟨some Gatekeeper.upstreamWeb, requestV1, none⟩ :=
  ⟨((RouteRequest_path routerTwo
        [("u1", Gatekeeper.upstreamWeb), ("u2", Gatekeeper.upstreamApi)] requestOther).2.2.1
      (by decide) (by decide) [("u1", Gatekeeper.upstreamWeb)] ("u2", Gatekeeper.upstreamApi) []
      rfl (by decide)).2 (by decide) (by decide),
    ((RouteRequest_path routerTwo
        [("u1", Gatekeeper.upstreamWeb), ("u2", Gatekeeper.upstreamApi)] requestV1).2.2.1
      (by decide) (by decide) [] ("u1", Gatekeeper.upstreamWeb) [("u2", Gatekeeper.upstreamApi)]
      rfl (by decide)).1 (by decide)⟩

/-- The hooks of the local router leave its tables as they were. -/
theorem localRouter_hooks (l : localRouter) (event : UpstreamEvent) :
    l.addUpstreamHook event = l ∧ l.removeUpstreamHook event = l := ⟨rfl, rfl⟩

/-- C25 (defect). A new local router runs `addUpstreamHook` on the
`UpstreamAdded` event of `upstreamWeb`, which lists `api.test`: its table
of upstreams is still empty, and `RouteRequest` of a request for `api.test`
fails with `RouteNotFoundError`. -/
theorem RouteRequest_fails_after_addUpstreamHook :
    eventWebAdded.Upstream = some Gatekeeper.upstreamWeb ∧
    requestV1.Host ∈ Gatekeeper.upstreamWeb.Hostnames ∧
    (NewLocalRouter.addUpstreamHook eventWebAdded).upstreams.entries = [] ∧
    ((NewLocalRouter.addUpstreamHook eventWebAdded).RouteRequest
        (NewLocalRouter.addUpstreamHook eventWebAdded).upstreams.entries requestV1).2
      = ⟨none, requestV1, some Error.RouteNotFoundError⟩ := by
  decide

end Core

namespace Core

/-- The hook for `UpstreamRemoved` takes nothing out of the tables: a
router that holds `upstreamWeb` still returns it after the hook has run. -/
theorem removeUpstreamHook_keeps_upstream :
    ((routerTwo.removeUpstreamHook eventWebRemoved).RouteRequest
        (routerTwo.removeUpstreamHook eventWebRemoved).upstreams.entries requestV1).2
      = ⟨some Gatekeeper.upstreamWeb, requestV1, none⟩ := by
  decide

end Core

/-! ## Memoization in the upstream matcher -/

namespace Gatekeeper

/-- A scan that returns a pointer with no error has stored that pointer in
the cache of its match type and written nothing else. -/
theorem scan_state (r : upstreamMatcher) (hostname pfx : String)
    (visit : List (UpstreamID × Option Upstream)) (p : Option Upstream)
    (t : UpstreamMatchType)
    (h : (r.scan hostname pfx visit).2 = some ⟨p, t, none⟩) :
    (t = UpstreamMatchType.HostnameUpstreamMatch ∧
      (r.scan hostname pfx visit).1
        = { r with upstreamsByHostname := r.upstreamsByHostname.store hostname p }) ∨
    (t = UpstreamMatchType.PrefixUpstreamMatch ∧
      (r.scan hostname pfx visit).1
        = { r with upstreamsByPrefix := r.upstreamsByPrefix.store pfx p }) := by
  induction visit with
  | nil => simp [upstreamMatcher.scan] at h
  | cons e rest ih =>
    obtain ⟨id, q⟩ := e
    cases q with
    | none => simp [upstreamMatcher.scan] at h
    | some w =>
      by_cases hH : w.HasHostname hostname = true
      · simp only [upstreamMatcher.scan, hH, if_true, MatchResult.mk.injEq, Option.some.injEq,
          and_true] at h ⊢
        obtain ⟨hw, ht⟩ := h
        subst hw
        exact Or.inl ⟨ht.symm, rfl⟩
      · by_cases hP : w.HasPrefix pfx = true
        · simp only [upstreamMatcher.scan, hH, hP, if_true, if_false, MatchResult.mk.injEq,
            Option.some.injEq, and_true, Bool.false_eq_true] at h ⊢
          obtain ⟨hw, ht⟩ := h
          subst hw
          exact Or.inr ⟨ht.symm, rfl⟩
        · simp only [upstreamMatcher.scan, hH, hP, if_false, Bool.false_eq_true] at h ⊢
          exact ih h

/-- C26. For a request with non-empty host and prefix: if `Match` returns
the pointer `p` with match type `t` and no error, then `t` is Hostname or
Prefix, the cache of that match type holds `p` under the host (Hostname) or
the prefix (Prefix) of the request, `knownUpstreams` is unchanged, and a
`Match` of the same request on the resulting state returns `p` with `t`
again, in every visiting order, whatever that order holds. -/
theorem Match_memoizes (r : upstreamMatcher)
    (visit visit' : List (UpstreamID × Option Upstream))
    (req : Request) (p : Option Upstream) (t : UpstreamMatchType)
    (hhost : req.Host ≠ "") (hpfx : req.Prefix ≠ "")
    (hres : (r.Match visit req).2 = some ⟨p, t, none⟩) :
    (t = UpstreamMatchType.HostnameUpstreamMatch ∨ t = UpstreamMatchType.PrefixUpstreamMatch) ∧
    (t = UpstreamMatchType.HostnameUpstreamMatch →
      (r.Match visit req).1.upstreamsByHostname.lookup req.Host = some p) ∧
    (t = UpstreamMatchType.PrefixUpstreamMatch →
      (r.Match visit req).1.upstreamsByPrefix.lookup req.Prefix = some p) ∧
    (r.Match visit req).1.knownUpstreams = r.knownUpstreams ∧
    ((r.Match visit req).1.Match visit' req).2 = some ⟨p, t, none⟩ := by
  cases hh : r.upstreamsByHostname.lookup req.Host with
  | some c =>
    have hm := Match_hostname_hit r visit req c hhost hh
    rw [hm] at hres ⊢
    simp only [MatchResult.mk.injEq, Option.some.injEq, and_true] at hres
    obtain ⟨hc, ht⟩ := hres
    subst hc
    subst ht
    refine ⟨Or.inl rfl, fun _ => hh, (fun h => by cases h), rfl, ?_⟩
    rw [Match_hostname_hit r visit' req c hhost hh]
  | none =>
    cases hp : r.upstreamsByPrefix.lookup req.Prefix with
    | some c =>
      have hm := Match_prefix_hit r visit req c (Or.inr hh) hpfx hp
      rw [hm] at hres ⊢
      simp only [MatchResult.mk.injEq, Option.some.injEq, and_true] at hres
      obtain ⟨hc, ht⟩ := hres
      subst hc
      subst ht
      refine ⟨Or.inr rfl, (fun h => by cases h), fun _ => hp, rfl, ?_⟩
      rw [Match_prefix_hit r visit' req c (Or.inr hh) hpfx hp]
    | none =>
      have hm := Match_eq_scan r visit req (Or.inr hh) (Or.inr hp)
      rw [hm] at hres ⊢
      rcases scan_state r req.Host req.Prefix visit p t hres with ⟨ht, hst⟩ | ⟨ht, hst⟩
      · subst ht
        have hl : (r.scan req.Host req.Prefix visit).1.upstreamsByHostname.lookup req.Host
            = some p := by
          rw [hst]; simp [GoMap.lookup_store]
        refine ⟨Or.inl rfl, fun _ => hl, (fun h => by cases h),
          scan_knownUpstreams r req.Host req.Prefix visit, ?_⟩
        rw [Match_hostname_hit _ visit' req p hhost hl]
      · subst ht
        have hl : (r.scan req.Host req.Prefix visit).1.upstreamsByPrefix.lookup req.Prefix
            = some p := by
          rw [hst]; simp [GoMap.lookup_store]
        have hhn : (r.scan req.Host req.Prefix visit).1.upstreamsByHostname.lookup req.Host
            = none := by
          rw [hst]; exact hh
        refine ⟨Or.inr rfl, (fun h => by cases h), fun _ => hl,
          scan_knownUpstreams r req.Host req.Prefix visit, ?_⟩
        rw [Match_prefix_hit _ visit' req p (Or.inr hhn) hpfx hl]

/-- C26, at the matcher that knows the two upstreams listing `api.test`
with empty caches: the first `Match` visits `u2` first and returns
`upstreamTwin`; the repeated `Match` visits `u1` first and returns
`upstreamTwin` again. -/
theorem Match_memoizes_witness :
    (matcherTwins.Match [("u2", some upstreamTwin), ("u1", some upstreamWeb)] requestWeb).2
      = some ⟨some upstreamTwin, UpstreamMatchType.HostnameUpstreamMatch, none⟩ ∧
    ((matcherTwins.Match [("u2", some upstreamTwin), ("u1", some upstreamWeb)] requestWeb).1.Match
        [("u1", some upstreamWeb), ("u2", some upstreamTwin)] requestWeb).2
      = some ⟨some upstreamTwin, UpstreamMatchType.HostnameUpstreamMatch, none⟩ :=
  ⟨by decide,
    (Match_memoizes matcherTwins [("u2", some upstreamTwin), ("u1", some upstreamWeb)]
      [("u1", some upstreamWeb), ("u2", some upstreamTwin)] requestWeb (some upstreamTwin)
      UpstreamMatchType.HostnameUpstreamMatch (by decide) (by decide) (by decide)).2.2.2.2⟩

end Gatekeeper

/-! ## The RPC server of the event plugin -/

namespace EventPlugin

open Gatekeeper

/-- The loop of `RPCServer.GeneralMetric`, from any list of errors
collected so far. -/
theorem foldl_GeneralMetric {μ : Type} (impl : μ → Option Error) (metrics : List μ)
    (acc : List (Option Error)) :
    metrics.foldl
      (fun errs metric =>
        match impl metric with
        | some err => errs ++ [NewError (some err)]
        | none => errs)
      acc
      = acc ++ metrics.filterMap (fun metric => (impl metric).map (fun err => NewError (some err))) := by
  induction metrics generalizing acc with
  | nil => simp
  | cons m rest ih =>
    rw [List.foldl_cons, ih]
    cases hm : impl m with
    | none => simp [List.filterMap_cons, hm]
    | some err => simp [List.filterMap_cons, hm]

/-- The rule of `RPCServer.GeneralMetric`: the reply holds one entry for
each metric on which the implementation returned an error, in input
order, and none for the metrics it accepted. -/
theorem GeneralMetric_reply {μ : Type} (impl : μ → Option Error) (metrics : List μ) :
    RPCServer.GeneralMetric impl metrics
      = metrics.filterMap (fun metric => (impl metric).map (fun err => NewError (some err))) := by
  unfold RPCServer.GeneralMetric
  rw [foldl_GeneralMetric]
  simp

/-- The loop of `RPCServer.Error`, from any list of errors collected so
far. -/
theorem foldl_Error (impl : Option Error → Option Error) (errors : List (Option Error))
    (acc : List (Option Error)) :
    errors.foldl
      (fun errs err =>
        let implErr := impl err
        if err ≠ none then errs ++ [NewError implErr] else errs)
      acc
      = acc ++ (errors.filter (fun err => err.isSome)).map (fun err => NewError (impl err)) := by
  induction errors generalizing acc with
  | nil => simp
  | cons e rest ih =>
    rw [List.foldl_cons, ih]
    cases e with
    | none => simp
    | some x => simp

/-- What `RPCServer.Error` replies: one entry for each input that is not
nil, holding whatever the implementation returned on it (nil when the
implementation accepted it), and no entry for a nil input. -/
theorem Error_reply (impl : Option Error → Option Error) (errors : List (Option Error)) :
    RPCServer.Error impl errors
      = (errors.filter (fun err => err.isSome)).map (fun err => NewError (impl err)) := by
  unfold RPCServer.Error
  rw [foldl_Error]
  simp

/-- C27 (defect). The implementation accepts the one error it is given
(it returns nil): the reply of `RPCServer.Error` still holds an entry for
that input, a nil one.  And when the implementation rejects a nil input,
the reply holds no entry for it. -/
theorem Error_reply_has_entry_for_accepted_input :
    implAccept (some (Error.errorf "boom")) = none ∧
    RPCServer.Error implAccept [some (Error.errorf "boom")] = [none] ∧
    implReject none = some (Error.errorf "rejected") ∧
    RPCServer.Error implReject [none] = [] := by
  decide

end EventPlugin
